import Mathlib

/-!
Verification of the SpatialGDK schema / component-id generation system
(`SpatialGDKEditorSchemaGenerator.cpp` and `CookAndGenerateSchemaCommandlet.cpp`).

The C++ code is embedded shallowly: Unreal `TMap`s become association lists
preserving insertion order (`TMap::Add` replaces in place or appends),
`TSet`s become duplicate-free lists, machine integers become `Nat`
(component ids are far below 2^32 in every scenario considered, and the
source never relies on wraparound), and filesystem / engine effects become
explicit environment records.  Helpers of this repository that are not part
of the analysed translation unit (`FComponentIdGenerator`,
`UnrealNameToSchemaName`, `SchemaFieldName`, `GenerateActorSchema`,
`GenerateSubobjectSchema`) are modelled from the specification and marked
as such in their doc comments.
-/

namespace SpatialGDK

/-- Lookup in an insertion-ordered association list (Unreal `TMap::Find`). -/
def mfind {α β : Type} [DecidableEq α] : List (α × β) → α → Option β
  | [], _ => none
  | (k, v) :: rest, key => if k = key then some v else mfind rest key

/-- Unreal `TMap::Contains`. -/
def mcontains {α β : Type} [DecidableEq α] (m : List (α × β)) (key : α) : Bool :=
  (mfind m key).isSome

/-- Unreal `TMap::Add`: replace the value in place if the key exists, else append. -/
def madd {α β : Type} [DecidableEq α] : List (α × β) → α → β → List (α × β)
  | [], key, v => [(key, v)]
  | (k, w) :: rest, key, v =>
    if k = key then (k, v) :: rest else (k, w) :: madd rest key v

/-- Unreal `TMap::FindRef` for integer values: the default value 0 when absent. -/
def mfindRef0 {α : Type} [DecidableEq α] (m : List (α × Nat)) (key : α) : Nat :=
  (mfind m key).getD 0

/-- Unreal `TSet::Add`: insert if not present. -/
def sinsert {α : Type} [DecidableEq α] (s : List α) (x : α) : List α :=
  if x ∈ s then s else s ++ [x]

/-- Unreal `TMap::KeySort` with `LHS < RHS` on `FString` keys. -/
def keySortByString {β : Type} (m : List (String × β)) : List (String × β) :=
  m.insertionSort (fun a b => a.1 ≤ b.1)

/-- Modelled from the spec: `UnrealNameToSchemaName` (from `Utils/DataTypeUtilities`,
not under the analysed sources).  The sanitizing transform strips every character
outside `[A-Za-z0-9_]`; in strict mode (used for class names) underscores are
removed as well. -/
def UnrealNameToSchemaName (name : String) (bStrict : Bool) : String :=
  String.mk (name.data.filter (fun c => c.isAlphanum || (c == '_' && !bStrict)))

/-- Modelled from the spec: `UnrealNameToSchemaComponentName` (from
`Utils/DataTypeUtilities`, not under the analysed sources): the sanitizing
transform applied to a component name (non-strict). -/
def UnrealNameToSchemaComponentName (name : String) : String :=
  UnrealNameToSchemaName name false

/-- Modelled from the spec: `FComponentIdGenerator` (from
`Utils/ComponentIdGenerator.h`, not under the analysed sources).  It is
constructed from a starting counter value, normally the database's persisted
`NextAvailableComponentId`. -/
structure FComponentIdGenerator where
  nextId : Nat
deriving DecidableEq

/-- Modelled from the spec: `next()` returns the current counter value then
increments it. -/
def FComponentIdGenerator.next (g : FComponentIdGenerator) : Nat × FComponentIdGenerator :=
  (g.nextId, ⟨g.nextId + 1⟩)

/-- Modelled from the spec: `peek()` returns the current counter value without
mutating it (it is a pure projection of the generator state). -/
def FComponentIdGenerator.peek (g : FComponentIdGenerator) : Nat :=
  g.nextId

/-- The list of values returned by `count` successive `next()` calls, together
with the final generator state. -/
def FComponentIdGenerator.run : FComponentIdGenerator → Nat → List Nat × FComponentIdGenerator
  | g, 0 => ([], g)
  | g, count + 1 =>
    let (v, g') := g.next
    let (vs, g'') := g'.run count
    (v :: vs, g'')

/-- `ESchemaComponentType` from `Utils/SchemaDatabase.h` (used throughout the
analysed sources): the three component categories of a class. -/
inductive ESchemaComponentType where
  | SCHEMA_Data
  | SCHEMA_OwnerOnly
  | SCHEMA_Handover
deriving DecidableEq

/-- The per-category component-id array `SchemaComponents[ESchemaComponentType]`
carried by actor/subobject schema records.  0 is the "unassigned" sentinel
(`SpatialConstants::INVALID_COMPONENT_ID`). -/
structure ComponentIdsPerType where
  dataId : Nat
  ownerOnlyId : Nat
  handoverId : Nat
deriving DecidableEq

/-- Indexing `SchemaComponents[Type]`. -/
def ComponentIdsPerType.get (c : ComponentIdsPerType) : ESchemaComponentType → Nat
  | .SCHEMA_Data => c.dataId
  | .SCHEMA_OwnerOnly => c.ownerOnlyId
  | .SCHEMA_Handover => c.handoverId

/-- The ids of a record as a list, in the `ForAllSchemaComponentTypes` order
(Data, OwnerOnly, Handover). -/
def ComponentIdsPerType.toList (c : ComponentIdsPerType) : List Nat :=
  [c.dataId, c.ownerOnlyId, c.handoverId]

/-- A replicated/handover property as the validation code sees it: the raw
property name (input of the sanitizing transform) and the full path name used
in diagnostics (`Property->GetPathName()`). -/
structure FUnrealProperty where
  propertyName : String
  pathName : String
deriving DecidableEq

/-- A subobject entry of a type-info tree: its name (`TypeInfo->Name`) and the
object path used in diagnostics (`TypeInfo->Object->GetPathName()`). -/
structure FUnrealSubobject where
  name : String
  pathName : String
deriving DecidableEq

/-- The slice of an `FUnrealType` tree consumed by the analysed code: the
class name and path, whether the class derives from `AActor`, the replicated
properties grouped by replication group (`GetFlatRepData`), the flattened
handover properties (`GetFlatHandoverData`) and the subobject map
(`GetAllSubobjects`).  Building this from reflection (`CreateUnrealTypeInfo`)
is outside the analysed sources; the descriptors are taken as input, already
complete (nested classes discovered by `VisitAllObjects` are assumed to be
part of the input class set). -/
structure FUnrealType where
  className : String
  classPath : String
  bIsActor : Bool
  repProps : List (List FUnrealProperty)
  handoverProps : List FUnrealProperty
  subobjects : List FUnrealSubobject
deriving DecidableEq

/-- Modelled from the spec: `SchemaFieldName` (from `Utils/DataTypeUtilities`,
not under the analysed sources): the sanitized schema field name of a
property. -/
def SchemaFieldName (p : FUnrealProperty) : String :=
  UnrealNameToSchemaName p.propertyName false

/-- A diagnostic emitted by the name-validation code (the `UE_LOG(... Error ...)`
calls of `CheckSchemaNameValidity` / `CheckIdentifierNameValidity`). -/
inductive SchemaError where
  | emptyAfterSanitize (category identifier : String)
  | leadingDigit (category name identifier : String)
  | nameCollision (category name firstIdentifier secondIdentifier : String)
deriving DecidableEq

/-- `CheckSchemaNameValidity` (SpatialGDKEditorSchemaGenerator.cpp:93-112):
false with an error when the sanitized name is empty or starts with a digit. -/
def CheckSchemaNameValidity (name identifier category : String) : Bool × List SchemaError :=
  if name.isEmpty then
    (false, [.emptyAfterSanitize category identifier])
  else if name.front.isDigit then
    (false, [.leadingDigit category name identifier])
  else
    (true, [])

/-- One property-group loop of `CheckIdentifierNameValidity`
(SpatialGDKEditorSchemaGenerator.cpp:118-171): walk the properties keeping a
map of schema field names already seen, reporting validity errors and
intra-class duplicate collisions; only the first holder of a name is added to
the map. -/
def checkPropertyLoop (category : String) :
    List FUnrealProperty → List (String × FUnrealProperty) → List SchemaError
  | [], _ => []
  | p :: rest, seen =>
    let n := SchemaFieldName p
    let validityErrs := (CheckSchemaNameValidity n p.pathName category).2
    match mfind seen n with
    | some existing =>
      validityErrs ++ [.nameCollision category n existing.pathName p.pathName]
        ++ checkPropertyLoop category rest seen
    | none =>
      validityErrs ++ checkPropertyLoop category rest (madd seen n p)

/-- The subobject loop of `CheckIdentifierNameValidity`
(SpatialGDKEditorSchemaGenerator.cpp:174-198), using the component-name
sanitization on subobject names. -/
def checkSubobjectLoop :
    List FUnrealSubobject → List (String × FUnrealSubobject) → List SchemaError
  | [], _ => []
  | s :: rest, seen =>
    let n := UnrealNameToSchemaComponentName s.name
    let validityErrs := (CheckSchemaNameValidity n s.pathName "Subobject").2
    match mfind seen n with
    | some existing =>
      validityErrs ++ [.nameCollision "Subobject" n existing.pathName s.pathName]
        ++ checkSubobjectLoop rest seen
    | none =>
      validityErrs ++ checkSubobjectLoop rest (madd seen n s)

/-- `CheckIdentifierNameValidity` (SpatialGDKEditorSchemaGenerator.cpp:114-199):
the errors reported for one type info — every replicated property group, then
the handover data, then the subobjects.  The caller's `bOutSuccess` is cleared
exactly when this list is non-empty. -/
def CheckIdentifierNameValidity (ti : FUnrealType) : List SchemaError :=
  (ti.repProps.map (fun g => checkPropertyLoop "Replicated property" g [])).flatten
    ++ checkPropertyLoop "Handover property" ti.handoverProps []
    ++ checkSubobjectLoop ti.subobjects []

/-- The three global name tables (`ClassPathToSchemaName`,
`SchemaNameToClassPath`, `PotentialSchemaNameCollisions` of
SpatialGDKEditorSchemaGenerator.cpp:55-57). -/
structure NamesState where
  classPathToSchemaName : List (String × String)
  schemaNameToClassPath : List (String × String)
  potentialSchemaNameCollisions : List (String × List String)
deriving DecidableEq

/-- `AddPotentialNameCollision` (SpatialGDKEditorSchemaGenerator.cpp:69-72):
`PotentialSchemaNameCollisions.FindOrAdd(DesiredSchemaName).Add("ClassPath(GeneratedSchemaName)")`. -/
def AddPotentialNameCollision (ns : NamesState)
    (desiredSchemaName classPath generatedSchemaName : String) : NamesState :=
  let entry := (mfind ns.potentialSchemaNameCollisions desiredSchemaName).getD []
  let entry' := sinsert entry (classPath ++ "(" ++ generatedSchemaName ++ ")")
  let collisions := madd ns.potentialSchemaNameCollisions desiredSchemaName entry'
  { ns with potentialSchemaNameCollisions := collisions }

/-- The suffixing loop of `ValidateIdentifierNames`
(SpatialGDKEditorSchemaGenerator.cpp:226-231): while the candidate name is
taken in `SchemaNameToClassPath`, retry with the non-strict sanitized class
name followed by the incremented numeric suffix.  The `while` loop is embedded
with fuel; `usedNames.length + 1` attempts always suffice because the
successive candidates are pairwise distinct strings. -/
def suffixFreeName (className : String) (usedNames : List (String × String)) :
    String → Nat → Nat → String
  | schemaName, _, 0 => schemaName
  | schemaName, suffix, fuel + 1 =>
    if mcontains usedNames schemaName then
      suffixFreeName className usedNames
        (UnrealNameToSchemaName className false ++ toString (suffix + 1)) (suffix + 1) fuel
    else
      schemaName

/-- One iteration of the class-name loop of `ValidateIdentifierNames`
(SpatialGDKEditorSchemaGenerator.cpp:206-240): sanitize the class name
strictly, check validity, skip classes whose path is already resolved,
otherwise find a free (possibly suffixed) name, commit it to both name tables
and record the potential collisions. -/
def validateClassStep (ns : NamesState) (ti : FUnrealType) :
    NamesState × Bool × List SchemaError :=
  let schemaName := UnrealNameToSchemaName ti.className true
  let (ok, errs) := CheckSchemaNameValidity schemaName ti.classPath "Class"
  let ns' :=
    if mcontains ns.classPathToSchemaName ti.classPath then ns
    else
      let finalName := suffixFreeName ti.className ns.schemaNameToClassPath schemaName 0
        (ns.schemaNameToClassPath.length + 1)
      let ns1 := { ns with
        classPathToSchemaName := madd ns.classPathToSchemaName ti.classPath finalName,
        schemaNameToClassPath := madd ns.schemaNameToClassPath finalName ti.classPath }
      let ns2 :=
        if schemaName ≠ finalName then
          AddPotentialNameCollision ns1 schemaName ti.classPath finalName
        else ns1
      AddPotentialNameCollision ns2 finalName ti.classPath finalName
  (ns', ok, errs)

/-- The class-name loop of `ValidateIdentifierNames` over the whole type-info
list, accumulating the per-class success flags and diagnostics. -/
def validateClassLoop : NamesState → List FUnrealType → NamesState × Bool × List SchemaError
  | ns, [] => (ns, true, [])
  | ns, ti :: rest =>
    let (ns', ok, errs) := validateClassStep ns ti
    let (nsRest, okRest, errsRest) := validateClassLoop ns' rest
    (nsRest, ok && okRest, errs ++ errsRest)

/-- `ValidateIdentifierNames` (SpatialGDKEditorSchemaGenerator.cpp:201-259):
the class-name loop followed by `CheckIdentifierNameValidity` over every type
info; `bSuccess` is the conjunction of both phases and the full diagnostic
list is returned (the source logs it). -/
def ValidateIdentifierNames (ns : NamesState) (typeInfos : List FUnrealType) :
    NamesState × Bool × List SchemaError :=
  let (ns', ok1, errs1) := validateClassLoop ns typeInfos
  let errs2 := (typeInfos.map CheckIdentifierNameValidity).flatten
  (ns', ok1 && errs2.isEmpty, errs1 ++ errs2)

/-- `FActorSpecificSubobjectSchemaData` (from `Utils/SchemaDatabase.h`): the
per-category ids of a static subobject slot of an actor. -/
structure FActorSpecificSubobjectSchemaData where
  classPath : String
  schemaComponents : ComponentIdsPerType
deriving DecidableEq

/-- `FActorSchemaData` (from `Utils/SchemaDatabase.h`): the persisted record of
an actor class — its generated schema name, its per-category component ids and
its static subobject slots (keyed by offset). -/
structure FActorSchemaData where
  generatedSchemaName : String
  schemaComponents : ComponentIdsPerType
  subobjectData : List (Nat × FActorSpecificSubobjectSchemaData)
deriving DecidableEq

/-- `FSubobjectSchemaData` (from `Utils/SchemaDatabase.h`): the persisted
record of a subobject class — its generated schema name and the per-category
id sets of its dynamically attached instances. -/
structure FSubobjectSchemaData where
  generatedSchemaName : String
  dynamicSubobjectComponents : List ComponentIdsPerType
deriving DecidableEq

/-- Modelled from the spec: `SpatialConstants::STARTING_GENERATED_COMPONENT_ID`
(from `SpatialConstants.h`, not under the analysed sources) — the fixed
starting value of the generated component-id range; ids below it are reserved
for built-in components.  The proofs never depend on the numeral. -/
def STARTING_GENERATED_COMPONENT_ID : Nat := 9001

/-- The global mutable state of the schema generator
(SpatialGDKEditorSchemaGenerator.cpp:43-60): the forward tables, the
per-category component-id sets, the counter and the name tables. -/
structure GenState where
  actorClassPathToSchema : List (String × FActorSchemaData)
  subobjectClassPathToSchema : List (String × FSubobjectSchemaData)
  nextAvailableComponentId : Nat
  dataComponents : List Nat
  ownerOnlyComponents : List Nat
  handoverComponents : List Nat
  levelPathToComponentId : List (String × Nat)
  netCullDistanceToComponentId : List (Nat × Nat)
  names : NamesState
  schemaGeneratedClasses : List String
deriving DecidableEq

/-- The state after `ResetSchemaGeneratorState`
(SpatialGDKEditorSchemaGenerator.cpp:681-693): every table emptied and the
counter back at the starting constant.  The name tables are not touched there
(they are reset per run by `ResetUsedNames`). -/
def ResetSchemaGeneratorState (st : GenState) : GenState :=
  { st with
    actorClassPathToSchema := [],
    subobjectClassPathToSchema := [],
    dataComponents := [],
    ownerOnlyComponents := [],
    handoverComponents := [],
    levelPathToComponentId := [],
    nextAvailableComponentId := STARTING_GENERATED_COMPONENT_ID,
    schemaGeneratedClasses := [],
    netCullDistanceToComponentId := [] }

/-- The completely empty generator state (the process-start value of the
globals). -/
def emptyGenState : GenState :=
  { actorClassPathToSchema := [],
    subobjectClassPathToSchema := [],
    nextAvailableComponentId := STARTING_GENERATED_COMPONENT_ID,
    dataComponents := [],
    ownerOnlyComponents := [],
    handoverComponents := [],
    levelPathToComponentId := [],
    netCullDistanceToComponentId := [],
    names := ⟨[], [], []⟩,
    schemaGeneratedClasses := [] }

/-- `FSoftObjectPath(ClassPath).GetAssetName()` (engine facility): the text
after the last `/` and before the first `.` of it. -/
def getAssetName (classPath : String) : String :=
  let lastSeg := ((classPath.splitOn "/").getLastD classPath)
  ((lastSeg.splitOn ".").headD lastSeg)

/-- `ResolveClassPathToSchemaName` (SpatialGDKEditorSchemaGenerator.cpp:815-832):
replay one committed `(ClassPath, SchemaName)` assignment into the name
tables, recording the potential collisions exactly as a fresh resolution
would. -/
def ResolveClassPathToSchemaName (ns : NamesState) (classPath schemaName : String) : NamesState :=
  if schemaName.isEmpty then ns
  else
    let ns1 := { ns with
      classPathToSchemaName := madd ns.classPathToSchemaName classPath schemaName,
      schemaNameToClassPath := madd ns.schemaNameToClassPath schemaName classPath }
    let desiredSchemaName := UnrealNameToSchemaName (getAssetName classPath) false
    let ns2 :=
      if desiredSchemaName ≠ schemaName then
        AddPotentialNameCollision ns1 desiredSchemaName classPath schemaName
      else ns1
    AddPotentialNameCollision ns2 schemaName classPath schemaName

/-- `ResetUsedNames` (SpatialGDKEditorSchemaGenerator.cpp:834-849): empty the
per-run name tables, then seed them from the committed actor and subobject
records so previously generated names stay reserved. -/
def ResetUsedNames (st : GenState) : GenState :=
  let ns0 : NamesState := ⟨[], [], []⟩
  let ns1 := st.actorClassPathToSchema.foldl
    (fun ns e => ResolveClassPathToSchemaName ns e.1 e.2.generatedSchemaName) ns0
  let ns2 := st.subobjectClassPathToSchema.foldl
    (fun ns e => ResolveClassPathToSchemaName ns e.1 e.2.generatedSchemaName) ns1
  { st with names := ns2 }

/-- Modelled from the spec: the reuse-or-mint policy of `GenerateActorSchema` /
`GenerateSubobjectSchema` (SchemaGenerator.cpp, not under the analysed
sources): per category, reuse the stored component id when the class was
already present in the database with a non-zero id for that category,
otherwise mint a new id from the generator. -/
def reuseOrMintIds (existing : Option ComponentIdsPerType) (g : FComponentIdGenerator) :
    ComponentIdsPerType × FComponentIdGenerator :=
  let pick := fun (stored : Nat) (g : FComponentIdGenerator) =>
    if stored ≠ 0 then (stored, g) else g.next
  match existing with
  | none =>
    let (d, g1) := g.next
    let (o, g2) := g1.next
    let (h, g3) := g2.next
    (⟨d, o, h⟩, g3)
  | some e =>
    let (d, g1) := pick e.dataId g
    let (o, g2) := pick e.ownerOnlyId g1
    let (h, g3) := pick e.handoverId g2
    (⟨d, o, h⟩, g3)

/-- The schema text block emitted for one component (the
`component <Name> { id = <ComponentId>; ... }` shape of the output contract),
as a list of lines. -/
def componentBlock (schemaName : String) (componentId : Nat) : List String :=
  ["component " ++ schemaName ++ " \x7b", "id = " ++ toString componentId ++ ";", "\x7d"]

/-- Modelled from the spec: `GenerateActorSchema` (SchemaGenerator.cpp, not
under the analysed sources): look up the resolved schema name, reuse or mint
the per-category ids, record them in the per-category id sets, store the
updated `FActorSchemaData` and emit the class's schema file text. -/
def GenerateActorSchema (st : GenState) (g : FComponentIdGenerator) (ti : FUnrealType) :
    GenState × FComponentIdGenerator × List String :=
  let schemaName := (mfind st.names.classPathToSchemaName ti.classPath).getD ""
  let existing := mfind st.actorClassPathToSchema ti.classPath
  let (ids, g') := reuseOrMintIds (existing.map (·.schemaComponents)) g
  let record : FActorSchemaData :=
    { generatedSchemaName := schemaName,
      schemaComponents := ids,
      subobjectData := (existing.map (·.subobjectData)).getD [] }
  let st' := { st with
    actorClassPathToSchema := madd st.actorClassPathToSchema ti.classPath record,
    dataComponents := sinsert st.dataComponents ids.dataId,
    ownerOnlyComponents := sinsert st.ownerOnlyComponents ids.ownerOnlyId,
    handoverComponents := sinsert st.handoverComponents ids.handoverId }
  (st', g', componentBlock schemaName ids.dataId)

/-- Modelled from the spec: `GenerateSubobjectSchema` (SchemaGenerator.cpp,
not under the analysed sources): a subobject class keeps its committed dynamic
per-category id sets when present, otherwise receives a freshly minted one;
the record is stored under the class path and the subobject schema file text
is emitted. -/
def GenerateSubobjectSchema (st : GenState) (g : FComponentIdGenerator) (ti : FUnrealType) :
    GenState × FComponentIdGenerator × List String :=
  let schemaName := (mfind st.names.classPathToSchemaName ti.classPath).getD ""
  let existing := mfind st.subobjectClassPathToSchema ti.classPath
  match existing with
  | some record =>
    let record' := { record with generatedSchemaName := schemaName }
    let st' := { st with
      subobjectClassPathToSchema := madd st.subobjectClassPathToSchema ti.classPath record' }
    (st', g, componentBlock schemaName ((record.dynamicSubobjectComponents.headD ⟨0, 0, 0⟩).dataId))
  | none =>
    let (ids, g') := reuseOrMintIds none g
    let record : FSubobjectSchemaData :=
      { generatedSchemaName := schemaName, dynamicSubobjectComponents := [ids] }
    let st' := { st with
      subobjectClassPathToSchema := madd st.subobjectClassPathToSchema ti.classPath record,
      dataComponents := sinsert st.dataComponents ids.dataId,
      ownerOnlyComponents := sinsert st.ownerOnlyComponents ids.ownerOnlyId,
      handoverComponents := sinsert st.handoverComponents ids.handoverId }
    (st', g', componentBlock schemaName ids.dataId)

/-- `GenerateCompleteSchemaFromClass` (SpatialGDKEditorSchemaGenerator.cpp:79-91):
dispatch on whether the class derives from `AActor`. -/
def GenerateCompleteSchemaFromClass (st : GenState) (g : FComponentIdGenerator)
    (ti : FUnrealType) : GenState × FComponentIdGenerator × List String :=
  if ti.bIsActor then GenerateActorSchema st g ti else GenerateSubobjectSchema st g ti

/-- `GenerateSchemaFromClasses` (SpatialGDKEditorSchemaGenerator.cpp:261-271):
generate schema for every type info in order, concatenating the emitted
text. -/
def GenerateSchemaFromClasses (st : GenState) (g : FComponentIdGenerator) :
    List FUnrealType → GenState × FComponentIdGenerator × List String
  | [] => (st, g, [])
  | ti :: rest =>
    let (st', g', text) := GenerateCompleteSchemaFromClass st g ti
    let (st'', g'', textRest) := GenerateSchemaFromClasses st' g' rest
    (st'', g'', text ++ textRest)

/-- The type-info building loop of `SpatialGDKGenerateSchemaForClasses`
(SpatialGDKEditorSchemaGenerator.cpp:986-1008): classes already in
`SchemaGeneratedClasses` are skipped, the others are appended to the visited
set and to the type-info list. -/
def buildTypeInfos : List FUnrealType → List String → List FUnrealType × List String
  | [], visited => ([], visited)
  | ti :: rest, visited =>
    if ti.classPath ∈ visited then buildTypeInfos rest visited
    else
      let (tis, visited') := buildTypeInfos rest (visited ++ [ti.classPath])
      (ti :: tis, visited')

/-- The `Classes.Sort` call of `SpatialGDKGenerateSchemaForClasses`
(SpatialGDKEditorSchemaGenerator.cpp:979-981): sort by `GetPathName()`. -/
def sortClassesByPath (classes : List FUnrealType) : List FUnrealType :=
  classes.insertionSort (fun a b => a.classPath ≤ b.classPath)

/-- `SpatialGDKGenerateSchemaForClasses`
(SpatialGDKEditorSchemaGenerator.cpp:976-1036): reset and reseed the name
tables, sort the class set by path, build the type infos (skipping classes
already visited this session), validate every identifier name — aborting the
whole run with no emitted text when validation fails — then generate schema
for every type info with a generator seeded at `NextAvailableComponentId`,
finally publishing the generator position back into the counter.  The result
carries the success flag, the new state, the emitted schema text and the
diagnostic log. -/
def SpatialGDKGenerateSchemaForClasses (st : GenState) (classes : List FUnrealType) :
    Bool × GenState × List String × List SchemaError :=
  let st := ResetUsedNames st
  let sorted := sortClassesByPath classes
  let (typeInfos, visited') := buildTypeInfos sorted st.schemaGeneratedClasses
  let st := { st with schemaGeneratedClasses := visited' }
  let (ns', ok, errs) := ValidateIdentifierNames st.names typeInfos
  let st := { st with names := ns' }
  if !ok then (false, st, [], errs)
  else
    let g : FComponentIdGenerator := ⟨st.nextAvailableComponentId⟩
    let (st', g', text) := GenerateSchemaFromClasses st g typeInfos
    (true, { st' with nextAvailableComponentId := g'.peek }, text, errs)

/-- `WriteLevelComponent` (SpatialGDKEditorSchemaGenerator.cpp:273-281): a
comment line with the class path followed by the component block named with
the component-sanitized level name. -/
def WriteLevelComponent (w : List String) (levelName : String) (componentId : Nat)
    (classPath : String) : List String :=
  w ++ ("// " ++ classPath) :: componentBlock (UnrealNameToSchemaComponentName levelName) componentId

/-- The duplicate-name branch of `GenerateSchemaForSublevels`
(SpatialGDKEditorSchemaGenerator.cpp:327-344): every path of the level name is
processed with its index; the stored key is the level path, the emitted
component name is the level name with the `Ind<i>` suffix. -/
def sublevelMultiLoop (levelNameString : String) :
    List String → Nat → List (String × Nat) → FComponentIdGenerator → List String →
    List (String × Nat) × FComponentIdGenerator × List String
  | [], _, m, g, w => (m, g, w)
  | path :: rest, i, m, g, w =>
    let stored := mfindRef0 m path
    let (componentId, g', m') :=
      if stored = 0 then
        let (v, g') := g.next
        (v, g', madd m path v)
      else (stored, g, m)
    let w' := WriteLevelComponent w (levelNameString ++ "Ind" ++ toString i) componentId path
    sublevelMultiLoop levelNameString rest (i + 1) m' g' w'

/-- One key of the `GenerateSchemaForSublevels` loop
(SpatialGDKEditorSchemaGenerator.cpp:325-357). -/
def sublevelStep (m : List (String × Nat)) (g : FComponentIdGenerator) (w : List String)
    (entry : String × List String) : List (String × Nat) × FComponentIdGenerator × List String :=
  if entry.2.length > 1 then
    sublevelMultiLoop entry.1 entry.2 0 m g w
  else
    let levelPath := entry.2.headD ""
    let stored := mfindRef0 m levelPath
    let (componentId, g', m') :=
      if stored = 0 then
        let (v, g') := g.next
        (v, g', madd m levelPath v)
      else (stored, g, m)
    (m', g', WriteLevelComponent w entry.1 componentId levelPath)

/-- The fold of `sublevelStep` over all level names. -/
def sublevelLoop : List (String × List String) → List (String × Nat) → FComponentIdGenerator →
    List String → List (String × Nat) × FComponentIdGenerator × List String
  | [], m, g, w => (m, g, w)
  | entry :: rest, m, g, w =>
    let (m', g', w') := sublevelStep m g w entry
    sublevelLoop rest m' g' w'

/-- `GenerateSchemaForSublevels` (SpatialGDKEditorSchemaGenerator.cpp:312-362):
seed a generator at `NextAvailableComponentId`, mint or reuse one id per level
path, and put the generator position back into the counter.  The input is the
level-name-to-paths multimap, presented as each distinct level name with its
list of paths. -/
def GenerateSchemaForSublevels (st : GenState) (levelNamesToPaths : List (String × List String)) :
    GenState × List String :=
  let g : FComponentIdGenerator := ⟨st.nextAvailableComponentId⟩
  let (m', g', w) := sublevelLoop levelNamesToPaths st.levelPathToComponentId g []
  ({ st with levelPathToComponentId := m', nextAvailableComponentId := g'.peek }, w)

/-- The loop of `GenerateSchemaForNCDs`
(SpatialGDKEditorSchemaGenerator.cpp:389-403): each entry of the
net-cull-distance map keeps its non-zero id or is assigned a fresh one in
place.  The distance key, a float in the source used only for map identity and
for the `NetCullDistanceSquared%lld` display, is embedded as its (uint64-cast)
key value. -/
def ncdLoop : List (Nat × Nat) → FComponentIdGenerator → List String →
    List (Nat × Nat) × FComponentIdGenerator × List String
  | [], g, w => ([], g, w)
  | (k, v) :: rest, g, w =>
    let (v', g') := if v = 0 then g.next else (v, g)
    let componentName := UnrealNameToSchemaComponentName ("NetCullDistanceSquared" ++ toString k)
    let w' := w ++ ("// distance " ++ toString k) :: componentBlock componentName v'
    let (rest', g'', w'') := ncdLoop rest g' w'
    ((k, v') :: rest', g'', w'')

/-- `GenerateSchemaForNCDs` (SpatialGDKEditorSchemaGenerator.cpp:379-408). -/
def GenerateSchemaForNCDs (st : GenState) : GenState × List String :=
  let g : FComponentIdGenerator := ⟨st.nextAvailableComponentId⟩
  let (m', g', w) := ncdLoop st.netCullDistanceToComponentId g []
  ({ st with netCullDistanceToComponentId := m', nextAvailableComponentId := g'.peek }, w)

/-- `GenerateRPCEndpointsSchema` (SchemaGenerator.cpp, not under the analysed
sources) writes fixed endpoint components and touches none of the generator
state; it is embedded as a constant emission. -/
def GenerateSchemaForRPCEndpoints : List String :=
  ["package unreal.generated;"]

/-- `USchemaDatabase` (from `Utils/SchemaDatabase.h`): the persisted record,
with the fields written by `SaveSchemaDatabase`
(SpatialGDKEditorSchemaGenerator.cpp:467-520) and read back by
`LoadGeneratorStateFromSchemaDatabase`. -/
structure USchemaDatabase where
  actorClassPathToSchema : List (String × FActorSchemaData)
  subobjectClassPathToSchema : List (String × FSubobjectSchemaData)
  nextAvailableComponentId : Nat
  dataComponentIds : List Nat
  ownerOnlyComponentIds : List Nat
  handoverComponentIds : List Nat
  levelPathToComponentId : List (String × Nat)
  netCullDistanceToComponentId : List (Nat × Nat)
  componentIdToClassPath : List (Nat × String)
  netCullDistanceComponentIds : List Nat
  levelComponentIds : List Nat
  schemaDescriptorHash : Nat
deriving DecidableEq

/-- The filesystem/engine facts consumed by
`LoadGeneratorStateFromSchemaDatabase`: whether the asset file stat data is
valid, whether the file is read-only, and what `TryLoad` yields. -/
structure LoadEnv where
  bStatValid : Bool
  bIsReadOnly : Bool
  loaded : Option USchemaDatabase
deriving DecidableEq

/-- `IsAssetReadOnly` (SpatialGDKEditorSchemaGenerator.cpp:757-770). -/
def IsAssetReadOnly (env : LoadEnv) : Bool :=
  env.bStatValid && env.bIsReadOnly

/-- `LoadGeneratorStateFromSchemaDatabase`
(SpatialGDKEditorSchemaGenerator.cpp:701-755): reject read-only and missing
or unloadable databases; otherwise copy every table into the globals, then
reject the database as stale when it has actor records while
`NextAvailableComponentId` still equals the starting constant. -/
def LoadGeneratorStateFromSchemaDatabase (st : GenState) (env : LoadEnv) : Bool × GenState :=
  if IsAssetReadOnly env then (false, st)
  else if env.bStatValid then
    match env.loaded with
    | none => (false, st)
    | some db =>
      let st' := { st with
        actorClassPathToSchema := db.actorClassPathToSchema,
        subobjectClassPathToSchema := db.subobjectClassPathToSchema,
        dataComponents := db.dataComponentIds.foldl sinsert [],
        ownerOnlyComponents := db.ownerOnlyComponentIds.foldl sinsert [],
        handoverComponents := db.handoverComponentIds.foldl sinsert [],
        levelPathToComponentId := db.levelPathToComponentId,
        nextAvailableComponentId := db.nextAvailableComponentId,
        netCullDistanceToComponentId := db.netCullDistanceToComponentId }
      if db.actorClassPathToSchema.length > 0
          && db.nextAvailableComponentId == STARTING_GENERATED_COMPONENT_ID then
        (false, st')
      else
        (true, st')
  else (false, st)

/-- The commandlet's load phase (CookAndGenerateSchemaCommandlet.cpp:89-92):
when the load is rejected, the generator state is fully reset
(`ResetSchemaGeneratorStateAndCleanupFolders`), forcing regeneration from
scratch. -/
def commandletLoadPhase (st : GenState) (env : LoadEnv) : GenState :=
  let (ok, st') := LoadGeneratorStateFromSchemaDatabase st env
  if ok then st' else ResetSchemaGeneratorState st'

/-- Add all three per-category ids of a record to the reverse map, in the
`ForAllSchemaComponentTypes` order. -/
def addIdsToReverseMap (m : List (Nat × String)) (ids : ComponentIdsPerType)
    (classPath : String) : List (Nat × String) :=
  madd (madd (madd m ids.dataId classPath) ids.ownerOnlyId classPath) ids.handoverId classPath

/-- `TMap::Remove` of one key. -/
def mremove {α β : Type} [DecidableEq α] (m : List (α × β)) (key : α) : List (α × β) :=
  m.filter (fun e => e.1 ≠ key)

/-- `CreateComponentIdToClassPathMap`
(SpatialGDKEditorSchemaGenerator.cpp:420-451): rebuild the reverse
ComponentId → ClassPath index from the authoritative forward tables, then drop
the invalid id 0. -/
def CreateComponentIdToClassPathMap (st : GenState) : List (Nat × String) :=
  let m1 := st.actorClassPathToSchema.foldl
    (fun m e =>
      let m' := addIdsToReverseMap m e.2.schemaComponents e.1
      e.2.subobjectData.foldl
        (fun m s => addIdsToReverseMap m s.2.schemaComponents s.2.classPath) m') []
  let m2 := st.subobjectClassPathToSchema.foldl
    (fun m e =>
      e.2.dynamicSubobjectComponents.foldl
        (fun m d => addIdsToReverseMap m d e.1) m) m1
  mremove m2 0

/-- The external `CityHash32` of the compiled descriptor bytes.  The exact
hash algorithm is an external library; it is embedded as a fixed executable
function of the bytes (no proof depends on its values beyond determinism). -/
def cityHash32 (bytes : List Nat) : Nat :=
  bytes.foldl (fun h b => (h * 31 + b % 256) % 4294967296) 17

/-- The filesystem facts consumed by `SaveSchemaDatabase`: whether
`schema.descriptor` could be opened, whether it could be fully read, its
bytes, and whether `UPackage::SavePackage` succeeds. -/
structure SaveEnv where
  bDescriptorOpenOk : Bool
  bDescriptorReadOk : Bool
  descriptorBytes : List Nat
  bPackageWriteOk : Bool
deriving DecidableEq

/-- `SaveSchemaDatabase` (SpatialGDKEditorSchemaGenerator.cpp:453-546): sort
the forward maps by key, build the `USchemaDatabase` object (including the
recomputed reverse index and the descriptor hash — 0 when the descriptor
cannot be opened or fully read), then attempt the package write; the result
is the saved database when the write succeeds, and nothing is persisted
otherwise.  The sorted maps are returned because `KeySort` mutates the
globals. -/
def SaveSchemaDatabase (st : GenState) (env : SaveEnv) :
    Bool × Option USchemaDatabase × GenState :=
  let st' := { st with
    actorClassPathToSchema := keySortByString st.actorClassPathToSchema,
    subobjectClassPathToSchema := keySortByString st.subobjectClassPathToSchema,
    levelPathToComponentId := keySortByString st.levelPathToComponentId }
  let hash :=
    if env.bDescriptorOpenOk then
      if env.bDescriptorReadOk then cityHash32 env.descriptorBytes else 0
    else 0
  let db : USchemaDatabase :=
    { actorClassPathToSchema := st'.actorClassPathToSchema,
      subobjectClassPathToSchema := st'.subobjectClassPathToSchema,
      nextAvailableComponentId := st'.nextAvailableComponentId,
      dataComponentIds := st'.dataComponents,
      ownerOnlyComponentIds := st'.ownerOnlyComponents,
      handoverComponentIds := st'.handoverComponents,
      levelPathToComponentId := st'.levelPathToComponentId,
      netCullDistanceToComponentId := st'.netCullDistanceToComponentId,
      componentIdToClassPath := CreateComponentIdToClassPathMap st',
      netCullDistanceComponentIds := st'.netCullDistanceToComponentId.map (·.2),
      levelComponentIds := st'.levelPathToComponentId.map (·.2),
      schemaDescriptorHash := hash }
  if env.bPackageWriteOk then (true, some db, st') else (false, none, st')

/-- The filesystem/subprocess facts consumed by `RunSchemaCompiler`
(SpatialGDKEditorSchemaGenerator.cpp:851-943): pre-existing compiled dir and
whether it can be deleted, whether the output dir can be created, and the
schema_compiler exit code. -/
structure CompilerEnv where
  bCompiledDirExists : Bool
  bDeleteDirOk : Bool
  bCreateDirOk : Bool
  exitCode : Nat
deriving DecidableEq

/-- `RunSchemaCompiler` (SpatialGDKEditorSchemaGenerator.cpp:851-943): fails
when the stale compiled directory cannot be removed or the output directory
cannot be created; otherwise succeeds exactly when the external
schema_compiler exits with code 0. -/
def RunSchemaCompiler (env : CompilerEnv) : Bool :=
  if env.bCompiledDirExists && !env.bDeleteDirOk then false
  else if !env.bCreateDirOk then false
  else env.exitCode == 0

/-- The external inputs of one full `SpatialGDKGenerateSchema` run. -/
structure PipelineEnv where
  classes : List FUnrealType
  levelNamesToPaths : List (String × List String)
  compilerEnv : CompilerEnv
  saveEnv : SaveEnv
deriving DecidableEq

/-- `SpatialGDKGenerateSchema` (SpatialGDKEditorSchemaGenerator.cpp:945-974):
clear the visited set, generate schema for the supported classes (aborting on
validation failure), generate the sublevel / RPC-endpoint / net-cull-distance
schema, run the external schema compiler, and only then save the schema
database.  The second result is the database actually persisted by the run
(`none` when nothing was written). -/
def SpatialGDKGenerateSchema (st : GenState) (env : PipelineEnv) :
    Bool × GenState × Option USchemaDatabase :=
  let st := { st with schemaGeneratedClasses := [] }
  let (ok, st, _, _) := SpatialGDKGenerateSchemaForClasses st env.classes
  if !ok then (false, st, none)
  else
    let (st, _) := GenerateSchemaForSublevels st env.levelNamesToPaths
    let (st, _) := GenerateSchemaForNCDs st
    if !RunSchemaCompiler env.compilerEnv then (false, st, none)
    else
      let (saveOk, db, st) := SaveSchemaDatabase st env.saveEnv
      if !saveOk then (false, st, none)
      else (true, st, db)

/-- The database on disk after a run, given the previously persisted one:
`SaveSchemaDatabase` either overwrites it or (on any failure) leaves it
untouched. -/
def persistedAfterRun (previous : Option USchemaDatabase) (st : GenState)
    (env : PipelineEnv) : Option USchemaDatabase :=
  match (SpatialGDKGenerateSchema st env).2.2 with
  | some db => some db
  | none => previous

/-! ## Properties of the component-id generator -/

theorem FComponentIdGenerator.run_mk (N : Nat) :
    ∀ count, (FComponentIdGenerator.mk N).run count
      = ((List.range count).map (N + ·), FComponentIdGenerator.mk (N + count)) := by
  intro count
  induction count generalizing N with
  | zero => simp [FComponentIdGenerator.run]
  | succ n ih =>
    simp only [FComponentIdGenerator.run, FComponentIdGenerator.next, ih (N + 1)]
    refine Prod.ext ?_ ?_
    · simp only [List.range_succ_eq_map, List.map_cons, List.map_map]
      refine congrArg₂ _ (by omega) ?_
      refine congrArg₂ _ (funext fun x => ?_) rfl
      simp [Function.comp]; omega
    · simp; omega

/-- C2: for every `FComponentIdGenerator` seeded at `N` and every finite
sequence of `next()` calls, no returned value repeats, every returned value is
at least `N`, and `peek()` returns exactly the value the following `next()`
would return — `peek` being a pure projection of the generator, it cannot
mutate the counter. -/
theorem claim_C2_generator_monotone_unique (N count : Nat) :
    (((FComponentIdGenerator.mk N).run count).1.Nodup
      ∧ ∀ v ∈ ((FComponentIdGenerator.mk N).run count).1, N ≤ v)
    ∧ ∀ g : FComponentIdGenerator, g.peek = (g.next).1 ∧ (g.next).2.peek = g.peek + 1 := by
  refine ⟨?_, fun g => ⟨rfl, rfl⟩⟩
  rw [FComponentIdGenerator.run_mk]
  constructor
  · exact List.Nodup.map (fun a b h => by omega) (List.nodup_range count)
  · intro v hv
    obtain ⟨i, _, rfl⟩ := List.mem_map.mp hv
    omega

/-! ## Stale-database rejection -/

/-- C5: whenever the persisted database holds at least one actor record while
its `NextAvailableComponentId` still equals `STARTING_GENERATED_COMPONENT_ID`,
`LoadGeneratorStateFromSchemaDatabase` rejects it (returns failure), and the
commandlet's load phase consequently resets the generator state entirely,
forcing a full regeneration. -/
theorem claim_C5_stale_database_rejected (st : GenState) (env : LoadEnv)
    (db : USchemaDatabase)
    (hdb : env.loaded = some db)
    (hrec : db.actorClassPathToSchema ≠ [])
    (hnext : db.nextAvailableComponentId = STARTING_GENERATED_COMPONENT_ID) :
    (LoadGeneratorStateFromSchemaDatabase st env).1 = false
    ∧ (commandletLoadPhase st env).actorClassPathToSchema = []
    ∧ (commandletLoadPhase st env).subobjectClassPathToSchema = []
    ∧ (commandletLoadPhase st env).levelPathToComponentId = []
    ∧ (commandletLoadPhase st env).netCullDistanceToComponentId = []
    ∧ (commandletLoadPhase st env).schemaGeneratedClasses = []
    ∧ (commandletLoadPhase st env).nextAvailableComponentId
        = STARTING_GENERATED_COMPONENT_ID := by
  have hlen : db.actorClassPathToSchema.length > 0 := by
    cases h : db.actorClassPathToSchema with
    | nil => exact absurd h hrec
    | cons a l => simp [h]
  have hfalse : (LoadGeneratorStateFromSchemaDatabase st env).1 = false := by
    unfold LoadGeneratorStateFromSchemaDatabase IsAssetReadOnly
    cases hv : env.bStatValid with
    | false => simp [hv]
    | true =>
      cases hr : env.bIsReadOnly with
      | true => simp [hv, hr]
      | false => simp [hv, hr, hdb, hlen, hnext]
  refine ⟨hfalse, ?_⟩
  unfold commandletLoadPhase
  rw [show (LoadGeneratorStateFromSchemaDatabase st env) =
    (false, (LoadGeneratorStateFromSchemaDatabase st env).2) from
      Prod.ext hfalse rfl]
  simp [ResetSchemaGeneratorState]

/-- A concrete stale database: one actor record, counter still at the starting
constant. -/
def staleDbExample : USchemaDatabase :=
  { actorClassPathToSchema :=
      [("/Game/A.A_C", ⟨"A", ⟨9001, 9002, 9003⟩, []⟩)],
    subobjectClassPathToSchema := [],
    nextAvailableComponentId := STARTING_GENERATED_COMPONENT_ID,
    dataComponentIds := [9001],
    ownerOnlyComponentIds := [9002],
    handoverComponentIds := [9003],
    levelPathToComponentId := [],
    netCullDistanceToComponentId := [],
    componentIdToClassPath := [],
    netCullDistanceComponentIds := [],
    levelComponentIds := [],
    schemaDescriptorHash := 0 }

theorem claim_C5_stale_database_rejected_witness :
    (⟨true, false, some staleDbExample⟩ : LoadEnv).loaded = some staleDbExample
    ∧ staleDbExample.actorClassPathToSchema ≠ []
    ∧ staleDbExample.nextAvailableComponentId = STARTING_GENERATED_COMPONENT_ID
    ∧ (LoadGeneratorStateFromSchemaDatabase emptyGenState
        ⟨true, false, some staleDbExample⟩).1 = false :=
  ⟨rfl, by decide, rfl,
    (claim_C5_stale_database_rejected emptyGenState ⟨true, false, some staleDbExample⟩
      staleDbExample rfl (by decide) rfl).1⟩

/-! ## Persistence gating -/

theorem SaveSchemaDatabase_fst (st : GenState) (env : SaveEnv) :
    (SaveSchemaDatabase st env).1 = env.bPackageWriteOk := by
  unfold SaveSchemaDatabase
  cases h : env.bPackageWriteOk <;> simp [h]

theorem SaveSchemaDatabase_isSome (st : GenState) (env : SaveEnv) :
    ((SaveSchemaDatabase st env).2.1.isSome) = env.bPackageWriteOk := by
  unfold SaveSchemaDatabase
  cases h : env.bPackageWriteOk <;> simp [h]

/-- C10: after a successful external compilation, when the compiled
`schema.descriptor` cannot be opened or cannot be fully read,
`SaveSchemaDatabase` nevertheless continues: it persists the database with
`SchemaDescriptorHash = 0` and returns success provided the package write
itself succeeds. -/
theorem claim_C10_descriptor_failure_hash_zero (st : GenState) (env : SaveEnv)
    (h : env.bDescriptorOpenOk = false ∨ env.bDescriptorReadOk = false) :
    (SaveSchemaDatabase st env).1 = env.bPackageWriteOk
    ∧ (∀ db, (SaveSchemaDatabase st env).2.1 = some db → db.schemaDescriptorHash = 0)
    ∧ (env.bPackageWriteOk = true → (SaveSchemaDatabase st env).2.1.isSome = true) := by
  refine ⟨SaveSchemaDatabase_fst st env, ?_, ?_⟩
  · intro db hdb
    unfold SaveSchemaDatabase at hdb
    cases hw : env.bPackageWriteOk with
    | false => simp [hw] at hdb
    | true =>
      simp only [hw, if_true, Option.some.injEq] at hdb
      rcases h with h | h <;> · rw [← hdb]; simp [h]
  · intro hw
    rw [SaveSchemaDatabase_isSome st env, hw]

theorem claim_C10_descriptor_failure_hash_zero_witness :
    ((false : Bool) = false ∨ (true : Bool) = false)
    ∧ (SaveSchemaDatabase emptyGenState ⟨false, true, [1, 2, 3], true⟩).1 = true
    ∧ (∀ db, (SaveSchemaDatabase emptyGenState ⟨false, true, [1, 2, 3], true⟩).2.1 = some db →
        db.schemaDescriptorHash = 0) :=
  ⟨Or.inl rfl,
    (claim_C10_descriptor_failure_hash_zero emptyGenState ⟨false, true, [1, 2, 3], true⟩
      (Or.inl rfl)).1,
    (claim_C10_descriptor_failure_hash_zero emptyGenState ⟨false, true, [1, 2, 3], true⟩
      (Or.inl rfl)).2.1⟩

/-- C6: a run persists the schema database exactly when identifier-name
validation, the external schema compilation and the package write all
succeed; a run failing any of these returns failure and persists nothing, so
the previously persisted database is untouched.  (Schema text emission is
embedded as pure data: the source checks no per-file write result, and a
missing output surfaces at the external compiler step.) -/
theorem claim_C6_save_only_on_success (st : GenState) (env : PipelineEnv)
    (previous : Option USchemaDatabase) :
    ((SpatialGDKGenerateSchema st env).2.2.isSome =
      ((SpatialGDKGenerateSchemaForClasses { st with schemaGeneratedClasses := [] }
          env.classes).1
        && RunSchemaCompiler env.compilerEnv
        && env.saveEnv.bPackageWriteOk))
    ∧ ((SpatialGDKGenerateSchema st env).1 = (SpatialGDKGenerateSchema st env).2.2.isSome)
    ∧ ((SpatialGDKGenerateSchema st env).2.2 = none →
        persistedAfterRun previous st env = previous) := by
  have hmain : (SpatialGDKGenerateSchema st env).2.2.isSome =
      ((SpatialGDKGenerateSchemaForClasses { st with schemaGeneratedClasses := [] }
          env.classes).1
        && RunSchemaCompiler env.compilerEnv
        && env.saveEnv.bPackageWriteOk)
      ∧ (SpatialGDKGenerateSchema st env).1 = (SpatialGDKGenerateSchema st env).2.2.isSome := by
    unfold SpatialGDKGenerateSchema
    cases hok : (SpatialGDKGenerateSchemaForClasses
        { st with schemaGeneratedClasses := [] } env.classes).1 with
    | false => simp [hok]
    | true =>
      cases hc : RunSchemaCompiler env.compilerEnv with
      | false => simp [hok, hc]
      | true =>
        cases hw : env.saveEnv.bPackageWriteOk with
        | false => simp [hok, hc, hw, SaveSchemaDatabase_fst, SaveSchemaDatabase_isSome]
        | true => simp [hok, hc, hw, SaveSchemaDatabase_fst, SaveSchemaDatabase_isSome]
  refine ⟨hmain.1, hmain.2, ?_⟩
  intro hnone
  unfold persistedAfterRun
  rw [hnone]

/-- A pipeline environment whose external schema compiler exits non-zero. -/
def compilerFailEnv : PipelineEnv :=
  { classes := [],
    levelNamesToPaths := [],
    compilerEnv := ⟨false, true, true, 1⟩,
    saveEnv := ⟨true, true, [], true⟩ }

theorem claim_C6_save_only_on_success_witness :
    (SpatialGDKGenerateSchema emptyGenState compilerFailEnv).2.2 = none
    ∧ persistedAfterRun (some staleDbExample) emptyGenState compilerFailEnv
        = some staleDbExample :=
  ⟨by decide,
    (claim_C6_save_only_on_success emptyGenState compilerFailEnv
      (some staleDbExample)).2.2 (by decide)⟩

/-! ## Validation is batch, not fail-fast -/

theorem checkSchemaNameValidity_ok_iff (n i c : String) :
    (CheckSchemaNameValidity n i c).1 = true ↔ (CheckSchemaNameValidity n i c).2 = [] := by
  unfold CheckSchemaNameValidity
  split_ifs <;> simp

theorem validateClassStep_snd (ns : NamesState) (ti : FUnrealType) :
    (validateClassStep ns ti).2 =
      CheckSchemaNameValidity (UnrealNameToSchemaName ti.className true) ti.classPath "Class" :=
  rfl

theorem validateClassLoop_cons (ns : NamesState) (ti : FUnrealType) (rest : List FUnrealType) :
    validateClassLoop ns (ti :: rest) =
      ((validateClassLoop (validateClassStep ns ti).1 rest).1,
        (validateClassStep ns ti).2.1
          && (validateClassLoop (validateClassStep ns ti).1 rest).2.1,
        (validateClassStep ns ti).2.2
          ++ (validateClassLoop (validateClassStep ns ti).1 rest).2.2) :=
  rfl

theorem validateClassLoop_ok_iff (tis : List FUnrealType) : ∀ ns : NamesState,
    ((validateClassLoop ns tis).2.1 = true ↔ (validateClassLoop ns tis).2.2 = []) := by
  induction tis with
  | nil => intro ns; simp [validateClassLoop]
  | cons ti rest ih =>
    intro ns
    rw [validateClassLoop_cons, validateClassStep_snd]
    simp only [Bool.and_eq_true, List.append_eq_nil]
    rw [checkSchemaNameValidity_ok_iff, ih]

theorem validateClassLoop_mem_errors (tis : List FUnrealType) : ∀ (ns : NamesState)
    (ti : FUnrealType), ti ∈ tis →
    ∀ e ∈ (CheckSchemaNameValidity (UnrealNameToSchemaName ti.className true)
      ti.classPath "Class").2,
    e ∈ (validateClassLoop ns tis).2.2 := by
  induction tis with
  | nil => intro ns ti h; cases h
  | cons hd rest ih =>
    intro ns ti hmem e he
    rw [validateClassLoop_cons]
    rcases List.mem_cons.mp hmem with rfl | hmem
    · exact List.mem_append_left _ (by rw [validateClassStep_snd]; exact he)
    · exact List.mem_append_right _ (ih _ ti hmem e he)

/-- C8: identifier-name validation examines every class, property and
subobject name and reports every violation found — every class-name validity
error and every per-class violation list (empty names, leading digits,
intra-class duplicates, over replicated groups, handover data and subobjects)
lands in the final diagnostic list, and the success flag is false exactly
when that list is non-empty, so the run never stops at the first violation. -/
theorem claim_C8_validation_aggregates_all_errors (ns : NamesState)
    (tis : List FUnrealType) :
    ((ValidateIdentifierNames ns tis).2.1 = true
      ↔ (ValidateIdentifierNames ns tis).2.2 = [])
    ∧ (∀ ti ∈ tis, ∀ e ∈ CheckIdentifierNameValidity ti,
        e ∈ (ValidateIdentifierNames ns tis).2.2)
    ∧ (∀ ti ∈ tis,
        ∀ e ∈ (CheckSchemaNameValidity (UnrealNameToSchemaName ti.className true)
          ti.classPath "Class").2,
        e ∈ (ValidateIdentifierNames ns tis).2.2) := by
  unfold ValidateIdentifierNames
  refine ⟨?_, ?_, ?_⟩
  · simp only [Bool.and_eq_true, List.append_eq_nil, List.isEmpty_iff]
    rw [validateClassLoop_ok_iff]
  · intro ti hti e he
    exact List.mem_append_right _
      (List.mem_flatten.mpr ⟨CheckIdentifierNameValidity ti, List.mem_map_of_mem _ hti, he⟩)
  · intro ti hti e he
    exact List.mem_append_left _ (validateClassLoop_mem_errors tis ns ti hti e he)

/-- A class whose replicated-property names are invalid (empty after
sanitizing). -/
def tiBadPropName : FUnrealType :=
  { className := "ClassA",
    classPath := "/Game/A.A_C",
    bIsActor := true,
    repProps := [[⟨"@@@", "/Game/A.A_C:AtProp"⟩]],
    handoverProps := [],
    subobjects := [] }

/-- A later class with two replicated properties sanitizing to the same field
name. -/
def tiDupProps : FUnrealType :=
  { className := "ClassB",
    classPath := "/Game/B.B_C",
    bIsActor := true,
    repProps := [[⟨"Health", "/Game/B.B_C:Health"⟩, ⟨"He@alth", "/Game/B.B_C:HeAtAlth"⟩]],
    handoverProps := [],
    subobjects := [] }

theorem claim_C8_validation_aggregates_all_errors_witness :
    tiDupProps ∈ [tiBadPropName, tiDupProps]
    ∧ SchemaError.nameCollision "Replicated property" "Health" "/Game/B.B_C:Health"
        "/Game/B.B_C:HeAtAlth"
      ∈ (ValidateIdentifierNames ⟨[], [], []⟩ [tiBadPropName, tiDupProps]).2.2 :=
  ⟨by decide,
    (claim_C8_validation_aggregates_all_errors ⟨[], [], []⟩
        [tiBadPropName, tiDupProps]).2.1 tiDupProps (by decide) _ (by decide)⟩

/-! ## Intra-class property collisions abort the run -/

theorem mcontains_madd {α β : Type} [DecidableEq α] (k k' : α) (v : β) :
    ∀ m : List (α × β), mcontains m k' = true → mcontains (madd m k v) k' = true := by
  intro m
  induction m with
  | nil => intro h; simp [mcontains, mfind] at h
  | cons e rest ih =>
    intro h
    obtain ⟨a, b⟩ := e
    by_cases hk : a = k
    · subst hk
      simp only [madd, if_pos rfl]
      by_cases hk' : a = k'
      · simp [mcontains, mfind, hk']
      · simp only [mcontains, mfind, if_neg hk'] at h ⊢
        exact h
    · simp only [madd, if_neg hk]
      by_cases hk' : a = k'
      · simp [mcontains, mfind, hk']
      · simp only [mcontains, mfind, if_neg hk'] at h ⊢
        exact ih h

theorem mcontains_madd_self {α β : Type} [DecidableEq α] (k : α) (v : β) :
    ∀ m : List (α × β), mcontains (madd m k v) k = true := by
  intro m
  induction m with
  | nil => simp [madd, mcontains, mfind]
  | cons e rest ih =>
    obtain ⟨a, b⟩ := e
    by_cases hk : a = k
    · simp [madd, if_pos hk, mcontains, mfind, hk]
    · simp only [madd, if_neg hk, mcontains, mfind]
      simpa [mcontains, if_neg hk] using ih

theorem checkPropertyLoop_ne_nil_of_seen (c : String) :
    ∀ (props : List FUnrealProperty) (seen : List (String × FUnrealProperty)),
      (∃ q ∈ props, mcontains seen (SchemaFieldName q) = true) →
      checkPropertyLoop c props seen ≠ [] := by
  intro props
  induction props with
  | nil => intro seen h; simp at h
  | cons p rest ih =>
    intro seen h
    cases hf : mfind seen (SchemaFieldName p) with
    | some existing =>
      simp only [checkPropertyLoop, hf]
      intro heq
      have := congrArg List.length heq
      simp [List.length_append] at this
    | none =>
      obtain ⟨q, hq, hqc⟩ := h
      rcases List.mem_cons.mp hq with rfl | hq
      · rw [mcontains, hf] at hqc
        simp at hqc
      · simp only [checkPropertyLoop, hf]
        intro heq
        have hrest := (List.append_eq_nil.mp heq).2
        exact ih (madd seen (SchemaFieldName p) p)
          ⟨q, hq, mcontains_madd _ _ _ _ hqc⟩ hrest

theorem checkPropertyLoop_ne_nil_of_dup (c : String) :
    ∀ (props : List FUnrealProperty) (seen : List (String × FUnrealProperty)),
      ¬ (props.map SchemaFieldName).Nodup →
      checkPropertyLoop c props seen ≠ [] := by
  intro props
  induction props with
  | nil => intro seen h; simp at h
  | cons p rest ih =>
    intro seen h
    cases hf : mfind seen (SchemaFieldName p) with
    | some existing =>
      simp only [checkPropertyLoop, hf]
      intro heq
      have := congrArg List.length heq
      simp [List.length_append] at this
    | none =>
      simp only [checkPropertyLoop, hf]
      intro heq
      have hrest := (List.append_eq_nil.mp heq).2
      rw [List.map_cons, List.nodup_cons] at h
      push_neg at h
      by_cases hmem : SchemaFieldName p ∈ rest.map SchemaFieldName
      · obtain ⟨q, hq, hqn⟩ := List.mem_map.mp hmem
        refine checkPropertyLoop_ne_nil_of_seen c rest
          (madd seen (SchemaFieldName p) p) ⟨q, hq, ?_⟩ hrest
        rw [hqn]
        exact mcontains_madd_self _ _ _
      · exact ih (madd seen (SchemaFieldName p) p) (h hmem) hrest

theorem CheckIdentifierNameValidity_ne_nil_of_dup_group (ti : FUnrealType)
    (g : List FUnrealProperty) (hg : g ∈ ti.repProps)
    (hdup : ¬ (g.map SchemaFieldName).Nodup) :
    CheckIdentifierNameValidity ti ≠ [] := by
  have hgroup : checkPropertyLoop "Replicated property" g [] ≠ [] :=
    checkPropertyLoop_ne_nil_of_dup _ g [] hdup
  obtain ⟨e, he⟩ := List.exists_mem_of_ne_nil _ hgroup
  refine List.ne_nil_of_mem (a := e) ?_
  unfold CheckIdentifierNameValidity
  refine List.mem_append_left _ (List.mem_append_left _ ?_)
  exact List.mem_flatten.mpr
    ⟨checkPropertyLoop "Replicated property" g [],
      List.mem_map_of_mem _ hg, he⟩

theorem buildTypeInfos_mem :
    ∀ (classes : List FUnrealType) (visited : List String) (ti : FUnrealType),
      ti ∈ classes → (classes.map FUnrealType.classPath).Nodup →
      ti.classPath ∉ visited →
      ti ∈ (buildTypeInfos classes visited).1 := by
  intro classes
  induction classes with
  | nil => intro visited ti h; cases h
  | cons hd rest ih =>
    intro visited ti hmem hnodup hnv
    rw [List.map_cons, List.nodup_cons] at hnodup
    rcases List.mem_cons.mp hmem with rfl | hmem
    · simp only [buildTypeInfos, if_neg hnv]
      exact List.mem_cons_self _ _
    · have hne : ti.classPath ≠ hd.classPath := by
        intro he
        exact hnodup.1 (he ▸ List.mem_map_of_mem _ hmem)
      by_cases hv : hd.classPath ∈ visited
      · simp only [buildTypeInfos, if_pos hv]
        exact ih visited ti hmem hnodup.2 hnv
      · simp only [buildTypeInfos, if_neg hv]
        refine List.mem_cons_of_mem _ (ih _ ti hmem hnodup.2 ?_)
        simp only [List.mem_append, List.mem_singleton]
        rintro (h | h)
        · exact hnv h
        · exact hne h

theorem ValidateIdentifierNames_fails_of_mem (ns : NamesState) (tis : List FUnrealType)
    (ti : FUnrealType) (hti : ti ∈ tis) (hbad : CheckIdentifierNameValidity ti ≠ []) :
    (ValidateIdentifierNames ns tis).2.1 = false := by
  obtain ⟨e, he⟩ := List.exists_mem_of_ne_nil _ hbad
  have hmem : e ∈ (tis.map CheckIdentifierNameValidity).flatten :=
    List.mem_flatten.mpr ⟨CheckIdentifierNameValidity ti, List.mem_map_of_mem _ hti, he⟩
  have hne : ((tis.map CheckIdentifierNameValidity).flatten).isEmpty = false := by
    cases hl : (tis.map CheckIdentifierNameValidity).flatten with
    | nil => rw [hl] at hmem; cases hmem
    | cons a l => simp
  unfold ValidateIdentifierNames
  simp [hne]

/-- C4: a class whose replicated properties contain two names sanitizing to
the same schema field name makes the whole generation run fail validation:
the run returns false, reports a non-empty diagnostic list, and emits no
schema text for any class of the run. -/
theorem claim_C4_property_collision_aborts_run (st : GenState)
    (classes : List FUnrealType) (ti : FUnrealType) (g : List FUnrealProperty)
    (hmem : ti ∈ classes)
    (hpaths : (classes.map FUnrealType.classPath).Nodup)
    (hnv : ti.classPath ∉ st.schemaGeneratedClasses)
    (hgroup : g ∈ ti.repProps)
    (hdup : ¬ (g.map SchemaFieldName).Nodup) :
    (SpatialGDKGenerateSchemaForClasses st classes).1 = false
    ∧ (SpatialGDKGenerateSchemaForClasses st classes).2.2.1 = []
    ∧ (SpatialGDKGenerateSchemaForClasses st classes).2.2.2 ≠ [] := by
  have hsortmem : ti ∈ sortClassesByPath classes :=
    (List.perm_insertionSort _ classes).mem_iff.mpr hmem
  have hsortnodup : ((sortClassesByPath classes).map FUnrealType.classPath).Nodup :=
    (((List.perm_insertionSort _ classes).map FUnrealType.classPath).nodup_iff).mpr hpaths
  have htis : ti ∈ (buildTypeInfos (sortClassesByPath classes)
      (ResetUsedNames st).schemaGeneratedClasses).1 := by
    refine buildTypeInfos_mem _ _ ti hsortmem hsortnodup ?_
    exact hnv
  have hbad : CheckIdentifierNameValidity ti ≠ [] :=
    CheckIdentifierNameValidity_ne_nil_of_dup_group ti g hgroup hdup
  have hval := ValidateIdentifierNames_fails_of_mem
    (ResetUsedNames st).names _ ti htis hbad
  have herr : (ValidateIdentifierNames (ResetUsedNames st).names
      (buildTypeInfos (sortClassesByPath classes)
        (ResetUsedNames st).schemaGeneratedClasses).1).2.2 ≠ [] := by
    obtain ⟨e, he⟩ := List.exists_mem_of_ne_nil _ hbad
    refine List.ne_nil_of_mem (a := e) ?_
    unfold ValidateIdentifierNames
    exact List.mem_append_right _
      (List.mem_flatten.mpr ⟨CheckIdentifierNameValidity ti,
        List.mem_map_of_mem _ htis, he⟩)
  unfold SpatialGDKGenerateSchemaForClasses
  simp [hval, herr]

theorem claim_C4_property_collision_aborts_run_witness :
    (SpatialGDKGenerateSchemaForClasses emptyGenState [tiDupProps]).1 = false
    ∧ (SpatialGDKGenerateSchemaForClasses emptyGenState [tiDupProps]).2.2.1 = [] :=
  have h := claim_C4_property_collision_aborts_run emptyGenState [tiDupProps] tiDupProps
    [⟨"Health", "/Game/B.B_C:Health"⟩, ⟨"He@alth", "/Game/B.B_C:HeAtAlth"⟩]
    (by decide) (by decide) (by decide) (by decide) (by decide)
  ⟨h.1, h.2.1⟩

/-! ## Collision suffixing -/

theorem mfind_madd_self {α β : Type} [DecidableEq α] (k : α) (v : β) :
    ∀ m : List (α × β), mfind (madd m k v) k = some v := by
  intro m
  induction m with
  | nil => simp [madd, mfind]
  | cons e rest ih =>
    obtain ⟨a, b⟩ := e
    by_cases hk : a = k
    · simp [madd, hk, mfind]
    · simp only [madd, if_neg hk, mfind]
      simpa [if_neg hk] using ih

theorem mfind_madd_ne {α β : Type} [DecidableEq α] (k k' : α) (v : β) (h : k ≠ k') :
    ∀ m : List (α × β), mfind (madd m k v) k' = mfind m k' := by
  intro m
  induction m with
  | nil => simp [madd, mfind, h]
  | cons e rest ih =>
    obtain ⟨a, b⟩ := e
    by_cases hk : a = k
    · subst hk
      simp [madd, mfind, h]
    · by_cases hk' : a = k'
      · simp [madd, mfind, hk, hk', Ne.symm h]
      · simp [madd, mfind, hk, hk', ih]

theorem mem_sinsert_self {α : Type} [DecidableEq α] (s : List α) (x : α) :
    x ∈ sinsert s x := by
  unfold sinsert
  split
  · assumption
  · simp

theorem mem_sinsert_of_mem {α : Type} [DecidableEq α] (s : List α) (x a : α) (h : a ∈ s) :
    a ∈ sinsert s x := by
  unfold sinsert
  split
  · exact h
  · exact List.mem_append_left _ h

theorem UnrealNameToSchemaName_strict_length_le (name : String) :
    (UnrealNameToSchemaName name true).length ≤ (UnrealNameToSchemaName name false).length := by
  unfold UnrealNameToSchemaName
  show (String.mk _).length ≤ (String.mk _).length
  simp only [String.length]
  have hsub : (name.data.filter (fun c => c.isAlphanum || (c == '_' && !true)))
      = ((name.data.filter (fun c => c.isAlphanum || (c == '_' && !false))).filter
        (fun c => c.isAlphanum || (c == '_' && !true))) := by
    rw [List.filter_filter]
    refine (List.filter_congr ?_).symm
    intro c _
    cases hc : c.isAlphanum <;> cases hu : (c == '_') <;> simp [hc, hu]
  rw [hsub]
  exact List.length_filter_le _ _

theorem suffixed_ne_strict (name : String) :
    UnrealNameToSchemaName name false ++ "1" ≠ UnrealNameToSchemaName name true := by
  intro h
  have hlen := congrArg String.length h
  rw [String.length_append] at hlen
  have hle := UnrealNameToSchemaName_strict_length_le name
  have : ("1" : String).length = 1 := rfl
  omega

theorem reuseOrMintIds_none (g : FComponentIdGenerator) :
    reuseOrMintIds none g =
      (⟨g.nextId, g.nextId + 1, g.nextId + 2⟩, ⟨g.nextId + 3⟩) := by
  simp [reuseOrMintIds, FComponentIdGenerator.next]

theorem generate_two_new_actors (st : GenState) (g : FComponentIdGenerator)
    (ti1 ti2 : FUnrealType) (hp : ti1.classPath ≠ ti2.classPath)
    (h1 : mfind st.actorClassPathToSchema ti1.classPath = none)
    (h2 : mfind st.actorClassPathToSchema ti2.classPath = none)
    (ha1 : ti1.bIsActor = true) (ha2 : ti2.bIsActor = true) :
    ∃ r1 r2 : FActorSchemaData,
      mfind (GenerateSchemaFromClasses st g [ti1, ti2]).1.actorClassPathToSchema
          ti1.classPath = some r1
      ∧ mfind (GenerateSchemaFromClasses st g [ti1, ti2]).1.actorClassPathToSchema
          ti2.classPath = some r2
      ∧ r1.schemaComponents = ⟨g.nextId, g.nextId + 1, g.nextId + 2⟩
      ∧ r2.schemaComponents = ⟨g.nextId + 3, g.nextId + 4, g.nextId + 5⟩ := by
  have hstep1 : GenerateActorSchema st g ti1 =
      ({ st with
          actorClassPathToSchema := madd st.actorClassPathToSchema ti1.classPath
            ⟨(mfind st.names.classPathToSchemaName ti1.classPath).getD "",
              ⟨g.nextId, g.nextId + 1, g.nextId + 2⟩, []⟩,
          dataComponents := sinsert st.dataComponents g.nextId,
          ownerOnlyComponents := sinsert st.ownerOnlyComponents (g.nextId + 1),
          handoverComponents := sinsert st.handoverComponents (g.nextId + 2) },
        ⟨g.nextId + 3⟩,
        componentBlock ((mfind st.names.classPathToSchemaName ti1.classPath).getD "")
          g.nextId) := by
    simp [GenerateActorSchema, h1, reuseOrMintIds_none]
  set st1 := (GenerateActorSchema st g ti1).1 with hst1
  have hactor1 : st1.actorClassPathToSchema = madd st.actorClassPathToSchema ti1.classPath
      ⟨(mfind st.names.classPathToSchemaName ti1.classPath).getD "",
        ⟨g.nextId, g.nextId + 1, g.nextId + 2⟩, []⟩ := by
    rw [hst1, hstep1]
  have hg1 : (GenerateActorSchema st g ti1).2.1 = ⟨g.nextId + 3⟩ := by rw [hstep1]
  have h2' : mfind st1.actorClassPathToSchema ti2.classPath = none := by
    rw [hactor1, mfind_madd_ne _ _ _ hp, h2]
  have hstep2 : GenerateActorSchema st1 ⟨g.nextId + 3⟩ ti2 =
      ({ st1 with
          actorClassPathToSchema := madd st1.actorClassPathToSchema ti2.classPath
            ⟨(mfind st1.names.classPathToSchemaName ti2.classPath).getD "",
              ⟨g.nextId + 3, g.nextId + 3 + 1, g.nextId + 3 + 2⟩, []⟩,
          dataComponents := sinsert st1.dataComponents (g.nextId + 3),
          ownerOnlyComponents := sinsert st1.ownerOnlyComponents (g.nextId + 3 + 1),
          handoverComponents := sinsert st1.handoverComponents (g.nextId + 3 + 2) },
        ⟨g.nextId + 3 + 3⟩,
        componentBlock ((mfind st1.names.classPathToSchemaName ti2.classPath).getD "")
          (g.nextId + 3)) := by
    simp [GenerateActorSchema, h2', reuseOrMintIds_none]
  have hfinal : (GenerateSchemaFromClasses st g [ti1, ti2]).1
      = (GenerateActorSchema st1 ⟨g.nextId + 3⟩ ti2).1 := by
    show (GenerateSchemaFromClasses st g (ti1 :: ti2 :: [])).1 = _
    simp only [GenerateSchemaFromClasses, GenerateCompleteSchemaFromClass, ha1, ha2,
      if_true, hg1, ← hst1]
  refine ⟨⟨(mfind st.names.classPathToSchemaName ti1.classPath).getD "",
      ⟨g.nextId, g.nextId + 1, g.nextId + 2⟩, []⟩,
    ⟨(mfind st1.names.classPathToSchemaName ti2.classPath).getD "",
      ⟨g.nextId + 3, g.nextId + 3 + 1, g.nextId + 3 + 2⟩, []⟩, ?_, ?_, rfl, ?_⟩
  · rw [hfinal, hstep2]
    show mfind (madd st1.actorClassPathToSchema ti2.classPath _) ti1.classPath = _
    rw [mfind_madd_ne _ _ _ (Ne.symm hp), hactor1, mfind_madd_self]
  · rw [hfinal, hstep2]
    exact mfind_madd_self _ _ _
  · show (⟨g.nextId + 3, g.nextId + 3 + 1, g.nextId + 3 + 2⟩ : ComponentIdsPerType) = _
    rw [show g.nextId + 3 + 1 = g.nextId + 4 from by omega,
      show g.nextId + 3 + 2 = g.nextId + 5 from by omega]

/-- C3: when two distinct ClassPaths carry class names that both sanitize
(strictly) to the same schema name, name resolution over the pair assigns the
contested base name to the first class and the numerically suffixed name
(non-strict sanitization plus `"1"`) to the second, records both classes in
the collision table under the contested name, and the generation run mints
pairwise distinct ComponentIds for the two classes. -/
theorem claim_C3_collision_suffix_and_distinct_ids (ti1 ti2 : FUnrealType)
    (hp : ti1.classPath ≠ ti2.classPath)
    (hs : UnrealNameToSchemaName ti2.className true
      = UnrealNameToSchemaName ti1.className true) :
    (mfind (ValidateIdentifierNames ⟨[], [], []⟩ [ti1, ti2]).1.classPathToSchemaName
        ti1.classPath = some (UnrealNameToSchemaName ti1.className true)
      ∧ mfind (ValidateIdentifierNames ⟨[], [], []⟩ [ti1, ti2]).1.classPathToSchemaName
        ti2.classPath = some (UnrealNameToSchemaName ti2.className false ++ "1")
      ∧ ∃ l, mfind (ValidateIdentifierNames ⟨[], [], []⟩
            [ti1, ti2]).1.potentialSchemaNameCollisions
            (UnrealNameToSchemaName ti1.className true) = some l
          ∧ ti1.classPath ++ "(" ++ UnrealNameToSchemaName ti1.className true ++ ")" ∈ l
          ∧ ti2.classPath ++ "(" ++ (UnrealNameToSchemaName ti2.className false ++ "1")
              ++ ")" ∈ l)
    ∧ ∀ (st : GenState) (g : FComponentIdGenerator),
        mfind st.actorClassPathToSchema ti1.classPath = none →
        mfind st.actorClassPathToSchema ti2.classPath = none →
        ti1.bIsActor = true → ti2.bIsActor = true →
        ∃ r1 r2 : FActorSchemaData,
          mfind (GenerateSchemaFromClasses st g [ti1, ti2]).1.actorClassPathToSchema
            ti1.classPath = some r1
          ∧ mfind (GenerateSchemaFromClasses st g [ti1, ti2]).1.actorClassPathToSchema
            ti2.classPath = some r2
          ∧ ∀ x ∈ r1.schemaComponents.toList, ∀ y ∈ r2.schemaComponents.toList, x ≠ y := by
  have hcs : (UnrealNameToSchemaName ti2.className false ++ "1")
      ≠ UnrealNameToSchemaName ti1.className true := by
    rw [← hs]
    exact suffixed_ne_strict ti2.className
  constructor
  · set s := UnrealNameToSchemaName ti1.className true with hsdef
    set c := UnrealNameToSchemaName ti2.className false ++ "1" with hcdef
    set p1 := ti1.classPath
    set p2 := ti2.classPath
    set d1 := p1 ++ "(" ++ s ++ ")" with hd1
    set d2 := p2 ++ "(" ++ c ++ ")" with hd2
    have hts : (toString (0 + 1 : Nat)) = "1" := rfl
    have hstep1 : (validateClassStep ⟨[], [], []⟩ ti1).1
        = ⟨[(p1, s)], [(s, p1)], [(s, [d1])]⟩ := by
      simp [validateClassStep, mcontains, mfind, suffixFreeName, madd,
        AddPotentialNameCollision, sinsert, ← hsdef]
    have hstep2 : (validateClassStep ⟨[(p1, s)], [(s, p1)], [(s, [d1])]⟩ ti2).1
        = ⟨[(p1, s), (p2, c)], [(s, p1), (c, p2)],
            [(s, sinsert [d1] d2), (c, [d2])]⟩ := by
      simp only [validateClassStep, hs, ← hsdef]
      simp [mcontains, mfind, suffixFreeName, madd, AddPotentialNameCollision,
        sinsert, Ne.symm hp, hts, ← hcdef, Ne.symm hcs, hcs, ← hsdef, ← hd2]
      simp only [if_neg hp]
    have hns : (ValidateIdentifierNames ⟨[], [], []⟩ [ti1, ti2]).1
        = ⟨[(p1, s), (p2, c)], [(s, p1), (c, p2)],
            [(s, sinsert [d1] d2), (c, [d2])]⟩ := by
      show (validateClassLoop ⟨[], [], []⟩ [ti1, ti2]).1 = _
      rw [validateClassLoop_cons]
      show (validateClassLoop (validateClassStep ⟨[], [], []⟩ ti1).1 [ti2]).1 = _
      rw [hstep1, validateClassLoop_cons]
      show (validateClassLoop (validateClassStep _ ti2).1 []).1 = _
      rw [hstep2]
      rfl
    rw [hns]
    refine ⟨?_, ?_, sinsert [d1] d2, ?_, ?_, ?_⟩
    · simp [mfind]
    · simp [mfind, hp]
    · simp [mfind]
    · exact mem_sinsert_of_mem _ _ _ (List.mem_singleton.mpr rfl)
    · exact mem_sinsert_self _ _
  · intro st g h1 h2 ha1 ha2
    obtain ⟨r1, r2, hr1, hr2, hc1, hc2⟩ :=
      generate_two_new_actors st g ti1 ti2 hp h1 h2 ha1 ha2
    refine ⟨r1, r2, hr1, hr2, ?_⟩
    intro x hx y hy
    rw [hc1] at hx
    rw [hc2] at hy
    simp only [ComponentIdsPerType.toList, List.mem_cons, List.mem_singleton,
      List.not_mem_nil, or_false] at hx hy
    rcases hx with rfl | rfl | rfl <;> rcases hy with rfl | rfl | rfl <;> omega

/-- Two distinct class paths whose class names both sanitize to `"Foo"`. -/
def tiFooA : FUnrealType :=
  { className := "Foo", classPath := "/Game/A.Foo_C", bIsActor := true,
    repProps := [], handoverProps := [], subobjects := [] }

def tiFooB : FUnrealType :=
  { className := "Foo", classPath := "/Game/B.Foo_C", bIsActor := true,
    repProps := [], handoverProps := [], subobjects := [] }

theorem claim_C3_collision_suffix_and_distinct_ids_witness :
    tiFooA.classPath ≠ tiFooB.classPath
    ∧ mfind (ValidateIdentifierNames ⟨[], [], []⟩
        [tiFooA, tiFooB]).1.classPathToSchemaName tiFooB.classPath
        = some (UnrealNameToSchemaName tiFooB.className false ++ "1")
    ∧ ∃ r1 r2 : FActorSchemaData,
        mfind (GenerateSchemaFromClasses emptyGenState ⟨9001⟩
          [tiFooA, tiFooB]).1.actorClassPathToSchema tiFooA.classPath = some r1
        ∧ mfind (GenerateSchemaFromClasses emptyGenState ⟨9001⟩
          [tiFooA, tiFooB]).1.actorClassPathToSchema tiFooB.classPath = some r2
        ∧ ∀ x ∈ r1.schemaComponents.toList, ∀ y ∈ r2.schemaComponents.toList, x ≠ y :=
  ⟨by decide,
    (claim_C3_collision_suffix_and_distinct_ids tiFooA tiFooB (by decide) rfl).1.2.1,
    (claim_C3_collision_suffix_and_distinct_ids tiFooA tiFooB (by decide) rfl).2
      emptyGenState ⟨9001⟩ rfl rfl rfl rfl⟩

/-! ## Incremental stability -/

/-- Every component id recorded anywhere in a persisted database's forward
tables. -/
def usedComponentIds (db : USchemaDatabase) : List Nat :=
  (db.actorClassPathToSchema.map (fun e =>
      e.2.schemaComponents.toList
        ++ (e.2.subobjectData.map (fun s => s.2.schemaComponents.toList)).flatten)).flatten
    ++ (db.subobjectClassPathToSchema.map (fun e =>
        (e.2.dynamicSubobjectComponents.map ComponentIdsPerType.toList).flatten)).flatten
    ++ db.levelPathToComponentId.map (·.2)
    ++ db.netCullDistanceToComponentId.map (·.2)

theorem reuseOrMintIds_some_nonzero (e : ComponentIdsPerType) (g : FComponentIdGenerator)
    (h1 : e.dataId ≠ 0) (h2 : e.ownerOnlyId ≠ 0) (h3 : e.handoverId ≠ 0) :
    reuseOrMintIds (some e) g = (e, g) := by
  simp [reuseOrMintIds, h1, h2, h3]

theorem GenerateActorSchema_new (st : GenState) (g : FComponentIdGenerator)
    (ti : FUnrealType) (h : mfind st.actorClassPathToSchema ti.classPath = none) :
    GenerateActorSchema st g ti =
      ({ st with
          actorClassPathToSchema := madd st.actorClassPathToSchema ti.classPath
            ⟨(mfind st.names.classPathToSchemaName ti.classPath).getD "",
              ⟨g.nextId, g.nextId + 1, g.nextId + 2⟩, []⟩,
          dataComponents := sinsert st.dataComponents g.nextId,
          ownerOnlyComponents := sinsert st.ownerOnlyComponents (g.nextId + 1),
          handoverComponents := sinsert st.handoverComponents (g.nextId + 2) },
        ⟨g.nextId + 3⟩,
        componentBlock ((mfind st.names.classPathToSchemaName ti.classPath).getD "")
          g.nextId) := by
  simp [GenerateActorSchema, h, reuseOrMintIds_none]

theorem GenerateActorSchema_reuse (st : GenState) (g : FComponentIdGenerator)
    (ti : FUnrealType) (rec : FActorSchemaData)
    (h : mfind st.actorClassPathToSchema ti.classPath = some rec)
    (h1 : rec.schemaComponents.dataId ≠ 0)
    (h2 : rec.schemaComponents.ownerOnlyId ≠ 0)
    (h3 : rec.schemaComponents.handoverId ≠ 0) :
    GenerateActorSchema st g ti =
      ({ st with
          actorClassPathToSchema := madd st.actorClassPathToSchema ti.classPath
            ⟨(mfind st.names.classPathToSchemaName ti.classPath).getD "",
              rec.schemaComponents, rec.subobjectData⟩,
          dataComponents := sinsert st.dataComponents rec.schemaComponents.dataId,
          ownerOnlyComponents := sinsert st.ownerOnlyComponents
            rec.schemaComponents.ownerOnlyId,
          handoverComponents := sinsert st.handoverComponents
            rec.schemaComponents.handoverId },
        g,
        componentBlock ((mfind st.names.classPathToSchemaName ti.classPath).getD "")
          rec.schemaComponents.dataId) := by
  simp [GenerateActorSchema, h, reuseOrMintIds_some_nonzero _ _ h1 h2 h3]

theorem generate_reuse_and_new (st : GenState) (g : FComponentIdGenerator)
    (tiA tiB : FUnrealType) (recA : FActorSchemaData)
    (hp : tiA.classPath ≠ tiB.classPath)
    (hA : mfind st.actorClassPathToSchema tiA.classPath = some recA)
    (h1 : recA.schemaComponents.dataId ≠ 0)
    (h2 : recA.schemaComponents.ownerOnlyId ≠ 0)
    (h3 : recA.schemaComponents.handoverId ≠ 0)
    (hB : mfind st.actorClassPathToSchema tiB.classPath = none)
    (haA : tiA.bIsActor = true) (haB : tiB.bIsActor = true)
    (l : List FUnrealType) (hl : l = [tiA, tiB] ∨ l = [tiB, tiA]) :
    ∃ rA rB : FActorSchemaData,
      mfind (GenerateSchemaFromClasses st g l).1.actorClassPathToSchema tiA.classPath
        = some rA
      ∧ rA.schemaComponents = recA.schemaComponents
      ∧ rA.subobjectData = recA.subobjectData
      ∧ mfind (GenerateSchemaFromClasses st g l).1.actorClassPathToSchema tiB.classPath
        = some rB
      ∧ rB.schemaComponents = ⟨g.nextId, g.nextId + 1, g.nextId + 2⟩ := by
  rcases hl with rfl | rfl
  · have hfc : (GenerateSchemaFromClasses st g [tiA, tiB]).1
        = (GenerateActorSchema (GenerateActorSchema st g tiA).1
            (GenerateActorSchema st g tiA).2.1 tiB).1 := by
      simp only [GenerateSchemaFromClasses, GenerateCompleteSchemaFromClass, haA, haB,
        if_true]
    have hstepA := GenerateActorSchema_reuse st g tiA recA hA h1 h2 h3
    have hg1 : (GenerateActorSchema st g tiA).2.1 = g := by rw [hstepA]
    have hact1 : (GenerateActorSchema st g tiA).1.actorClassPathToSchema
        = madd st.actorClassPathToSchema tiA.classPath
          ⟨(mfind st.names.classPathToSchemaName tiA.classPath).getD "",
            recA.schemaComponents, recA.subobjectData⟩ := by rw [hstepA]
    have hBnone : mfind (GenerateActorSchema st g tiA).1.actorClassPathToSchema
        tiB.classPath = none := by
      rw [hact1, mfind_madd_ne _ _ _ hp, hB]
    have hstepB := GenerateActorSchema_new (GenerateActorSchema st g tiA).1 g tiB hBnone
    rw [hfc, hg1, hstepB]
    refine ⟨⟨(mfind st.names.classPathToSchemaName tiA.classPath).getD "",
        recA.schemaComponents, recA.subobjectData⟩,
      ⟨(mfind (GenerateActorSchema st g tiA).1.names.classPathToSchemaName
          tiB.classPath).getD "", ⟨g.nextId, g.nextId + 1, g.nextId + 2⟩, []⟩,
      ?_, rfl, rfl, ?_, rfl⟩
    · show mfind (madd _ tiB.classPath _) tiA.classPath = _
      rw [mfind_madd_ne _ _ _ (Ne.symm hp), hact1, mfind_madd_self]
    · exact mfind_madd_self _ _ _
  · have hfc : (GenerateSchemaFromClasses st g [tiB, tiA]).1
        = (GenerateActorSchema (GenerateActorSchema st g tiB).1
            (GenerateActorSchema st g tiB).2.1 tiA).1 := by
      simp only [GenerateSchemaFromClasses, GenerateCompleteSchemaFromClass, haA, haB,
        if_true]
    have hstepB := GenerateActorSchema_new st g tiB hB
    have hg1 : (GenerateActorSchema st g tiB).2.1 = ⟨g.nextId + 3⟩ := by rw [hstepB]
    have hact1 : (GenerateActorSchema st g tiB).1.actorClassPathToSchema
        = madd st.actorClassPathToSchema tiB.classPath
          ⟨(mfind st.names.classPathToSchemaName tiB.classPath).getD "",
            ⟨g.nextId, g.nextId + 1, g.nextId + 2⟩, []⟩ := by rw [hstepB]
    have hnames1 : (GenerateActorSchema st g tiB).1.names = st.names := by rw [hstepB]
    have hAsome : mfind (GenerateActorSchema st g tiB).1.actorClassPathToSchema
        tiA.classPath = some recA := by
      rw [hact1, mfind_madd_ne _ _ _ (Ne.symm hp), hA]
    have hstepA := GenerateActorSchema_reuse (GenerateActorSchema st g tiB).1
      (GenerateActorSchema st g tiB).2.1 tiA recA hAsome h1 h2 h3
    rw [hfc, hstepA]
    refine ⟨⟨(mfind (GenerateActorSchema st g tiB).1.names.classPathToSchemaName
        tiA.classPath).getD "", recA.schemaComponents, recA.subobjectData⟩,
      ⟨(mfind st.names.classPathToSchemaName tiB.classPath).getD "",
        ⟨g.nextId, g.nextId + 1, g.nextId + 2⟩, []⟩,
      ?_, rfl, rfl, ?_, rfl⟩
    · exact mfind_madd_self _ _ _
    · show mfind (madd _ tiA.classPath _) tiB.classPath = _
      rw [mfind_madd_ne _ _ _ hp, hact1, mfind_madd_self]

/-- The state with which the generation phase of
`SpatialGDKGenerateSchemaForClasses` runs on the success path: names reset,
visited set extended, name tables updated by validation. -/
def runGenState (st : GenState) (classes : List FUnrealType) : GenState :=
  { ResetUsedNames st with
    schemaGeneratedClasses := (buildTypeInfos (sortClassesByPath classes)
      (ResetUsedNames st).schemaGeneratedClasses).2,
    names := (ValidateIdentifierNames (ResetUsedNames st).names
      (buildTypeInfos (sortClassesByPath classes)
        (ResetUsedNames st).schemaGeneratedClasses).1).1 }

theorem runGenState_actor (st : GenState) (classes : List FUnrealType) :
    (runGenState st classes).actorClassPathToSchema = st.actorClassPathToSchema :=
  rfl

theorem run_success_projections (st : GenState) (classes : List FUnrealType)
    (hok : (ValidateIdentifierNames (ResetUsedNames st).names
      (buildTypeInfos (sortClassesByPath classes)
        (ResetUsedNames st).schemaGeneratedClasses).1).2.1 = true) :
    (SpatialGDKGenerateSchemaForClasses st classes).1 = true
    ∧ (SpatialGDKGenerateSchemaForClasses st classes).2.1.actorClassPathToSchema
      = (GenerateSchemaFromClasses (runGenState st classes)
          ⟨st.nextAvailableComponentId⟩
          (buildTypeInfos (sortClassesByPath classes)
            (ResetUsedNames st).schemaGeneratedClasses).1).1.actorClassPathToSchema := by
  unfold SpatialGDKGenerateSchemaForClasses
  simp only [hok, Bool.not_true, Bool.false_eq_true, if_false]
  exact ⟨trivial, rfl⟩

theorem validate_two_ok (ns : NamesState) (x y : FUnrealType)
    (hvx : (CheckSchemaNameValidity (UnrealNameToSchemaName x.className true)
      x.classPath "Class").1 = true)
    (hvy : (CheckSchemaNameValidity (UnrealNameToSchemaName y.className true)
      y.classPath "Class").1 = true)
    (hcx : CheckIdentifierNameValidity x = [])
    (hcy : CheckIdentifierNameValidity y = []) :
    (ValidateIdentifierNames ns [x, y]).2.1 = true := by
  have herrs1 : (validateClassLoop ns [x, y]).2.2 = [] := by
    rw [validateClassLoop_cons, validateClassStep_snd,
      (checkSchemaNameValidity_ok_iff _ _ _).mp hvx]
    rw [validateClassLoop_cons, validateClassStep_snd,
      (checkSchemaNameValidity_ok_iff _ _ _).mp hvy]
    rfl
  have hok1 : (validateClassLoop ns [x, y]).2.1 = true :=
    (validateClassLoop_ok_iff _ _).mpr herrs1
  unfold ValidateIdentifierNames
  show ((validateClassLoop ns [x, y]).2.1 && _) = true
  rw [hok1]
  simp [hcx, hcy]

/-- C1: starting from a committed database that maps ClassPath `A` to a
record with non-zero per-category ComponentIds (e.g. Data = 1000) and a
persisted `NextAvailableComponentId` beyond the starting constant, re-running
generation over the class set `{A, B}` (B new, both passing name validation)
succeeds, keeps `A`'s ComponentIds exactly as persisted, and assigns `B`
ComponentIds that are at least the persisted `NextAvailableComponentId` and
are used nowhere in the persisted database. -/
theorem claim_C1_incremental_stability (db : USchemaDatabase) (tiA tiB : FUnrealType)
    (recA : FActorSchemaData)
    (hdbA : db.actorClassPathToSchema = [(tiA.classPath, recA)])
    (h1 : recA.schemaComponents.dataId ≠ 0)
    (h2 : recA.schemaComponents.ownerOnlyId ≠ 0)
    (h3 : recA.schemaComponents.handoverId ≠ 0)
    (hp : tiA.classPath ≠ tiB.classPath)
    (hstale : db.nextAvailableComponentId ≠ STARTING_GENERATED_COMPONENT_ID)
    (hused : ∀ id ∈ usedComponentIds db, id < db.nextAvailableComponentId)
    (haA : tiA.bIsActor = true) (haB : tiB.bIsActor = true)
    (hvA : (CheckSchemaNameValidity (UnrealNameToSchemaName tiA.className true)
      tiA.classPath "Class").1 = true)
    (hvB : (CheckSchemaNameValidity (UnrealNameToSchemaName tiB.className true)
      tiB.classPath "Class").1 = true)
    (hcA : CheckIdentifierNameValidity tiA = [])
    (hcB : CheckIdentifierNameValidity tiB = []) :
    (LoadGeneratorStateFromSchemaDatabase emptyGenState ⟨true, false, some db⟩).1 = true
    ∧ (SpatialGDKGenerateSchemaForClasses
        (LoadGeneratorStateFromSchemaDatabase emptyGenState ⟨true, false, some db⟩).2
        [tiA, tiB]).1 = true
    ∧ ∃ rA rB : FActorSchemaData,
        mfind (SpatialGDKGenerateSchemaForClasses
            (LoadGeneratorStateFromSchemaDatabase emptyGenState ⟨true, false, some db⟩).2
            [tiA, tiB]).2.1.actorClassPathToSchema tiA.classPath = some rA
        ∧ rA.schemaComponents = recA.schemaComponents
        ∧ mfind (SpatialGDKGenerateSchemaForClasses
            (LoadGeneratorStateFromSchemaDatabase emptyGenState ⟨true, false, some db⟩).2
            [tiA, tiB]).2.1.actorClassPathToSchema tiB.classPath = some rB
        ∧ ∀ x ∈ rB.schemaComponents.toList,
            db.nextAvailableComponentId ≤ x ∧ x ∉ usedComponentIds db := by
  have hbeq : (db.nextAvailableComponentId == STARTING_GENERATED_COMPONENT_ID) = false :=
    beq_eq_false_iff_ne.mpr hstale
  have hloadEq : LoadGeneratorStateFromSchemaDatabase emptyGenState ⟨true, false, some db⟩
      = (true, { emptyGenState with
          actorClassPathToSchema := db.actorClassPathToSchema,
          subobjectClassPathToSchema := db.subobjectClassPathToSchema,
          dataComponents := db.dataComponentIds.foldl sinsert [],
          ownerOnlyComponents := db.ownerOnlyComponentIds.foldl sinsert [],
          handoverComponents := db.handoverComponentIds.foldl sinsert [],
          levelPathToComponentId := db.levelPathToComponentId,
          nextAvailableComponentId := db.nextAvailableComponentId,
          netCullDistanceToComponentId := db.netCullDistanceToComponentId }) := by
    unfold LoadGeneratorStateFromSchemaDatabase IsAssetReadOnly
    simp [hbeq]
  have hsnd := congrArg Prod.snd hloadEq
  refine ⟨by rw [hloadEq], ?_⟩
  rw [hsnd]
  set st0 : GenState := { emptyGenState with
      actorClassPathToSchema := db.actorClassPathToSchema,
      subobjectClassPathToSchema := db.subobjectClassPathToSchema,
      dataComponents := db.dataComponentIds.foldl sinsert [],
      ownerOnlyComponents := db.ownerOnlyComponentIds.foldl sinsert [],
      handoverComponents := db.handoverComponentIds.foldl sinsert [],
      levelPathToComponentId := db.levelPathToComponentId,
      nextAvailableComponentId := db.nextAvailableComponentId,
      netCullDistanceToComponentId := db.netCullDistanceToComponentId } with hst0
  have hsort : sortClassesByPath [tiA, tiB] = [tiA, tiB]
      ∨ sortClassesByPath [tiA, tiB] = [tiB, tiA] := by
    unfold sortClassesByPath
    by_cases h : tiA.classPath ≤ tiB.classPath
    · left; simp [List.insertionSort, List.orderedInsert, h]
    · right; simp [List.insertionSort, List.orderedInsert, h]
  have hbuild : ∀ x y : FUnrealType, x.classPath ≠ y.classPath →
      (buildTypeInfos [x, y] ([] : List String)).1 = [x, y] := by
    intro x y hxy
    simp [buildTypeInfos, Ne.symm hxy]
  have hA0 : mfind (runGenState st0 [tiA, tiB]).actorClassPathToSchema tiA.classPath
      = some recA := by
    rw [runGenState_actor]
    show mfind db.actorClassPathToSchema tiA.classPath = some recA
    rw [hdbA]
    simp [mfind]
  have hB0 : mfind (runGenState st0 [tiA, tiB]).actorClassPathToSchema tiB.classPath
      = none := by
    rw [runGenState_actor]
    show mfind db.actorClassPathToSchema tiB.classPath = none
    rw [hdbA]
    simp [mfind, hp]
  rcases hsort with hsort | hsort
  · have htis : (buildTypeInfos (sortClassesByPath [tiA, tiB])
        (ResetUsedNames st0).schemaGeneratedClasses).1 = [tiA, tiB] := by
      rw [hsort]
      exact hbuild tiA tiB hp
    have hok : (ValidateIdentifierNames (ResetUsedNames st0).names
        (buildTypeInfos (sortClassesByPath [tiA, tiB])
          (ResetUsedNames st0).schemaGeneratedClasses).1).2.1 = true := by
      rw [htis]
      exact validate_two_ok _ tiA tiB hvA hvB hcA hcB
    have hproj := run_success_projections st0 [tiA, tiB] hok
    refine ⟨hproj.1, ?_⟩
    rw [hproj.2, htis]
    obtain ⟨rA, rB, hrA, hcompA, _, hrB, hcompB⟩ :=
      generate_reuse_and_new (runGenState st0 [tiA, tiB]) ⟨st0.nextAvailableComponentId⟩
        tiA tiB recA hp hA0 h1 h2 h3 hB0 haA haB [tiA, tiB] (Or.inl rfl)
    refine ⟨rA, rB, hrA, hcompA, hrB, ?_⟩
    have hcompB' : rB.schemaComponents = ⟨db.nextAvailableComponentId,
        db.nextAvailableComponentId + 1, db.nextAvailableComponentId + 2⟩ := hcompB
    intro x hx
    rw [hcompB'] at hx
    simp only [ComponentIdsPerType.toList, List.mem_cons, List.mem_singleton,
      List.not_mem_nil, or_false] at hx
    constructor
    · rcases hx with rfl | rfl | rfl <;> omega
    · intro hxu
      have := hused x hxu
      rcases hx with rfl | rfl | rfl <;> omega
  · have htis : (buildTypeInfos (sortClassesByPath [tiA, tiB])
        (ResetUsedNames st0).schemaGeneratedClasses).1 = [tiB, tiA] := by
      rw [hsort]
      exact hbuild tiB tiA (Ne.symm hp)
    have hok : (ValidateIdentifierNames (ResetUsedNames st0).names
        (buildTypeInfos (sortClassesByPath [tiA, tiB])
          (ResetUsedNames st0).schemaGeneratedClasses).1).2.1 = true := by
      rw [htis]
      exact validate_two_ok _ tiB tiA hvB hvA hcB hcA
    have hproj := run_success_projections st0 [tiA, tiB] hok
    refine ⟨hproj.1, ?_⟩
    rw [hproj.2, htis]
    obtain ⟨rA, rB, hrA, hcompA, _, hrB, hcompB⟩ :=
      generate_reuse_and_new (runGenState st0 [tiA, tiB]) ⟨st0.nextAvailableComponentId⟩
        tiA tiB recA hp hA0 h1 h2 h3 hB0 haA haB [tiB, tiA] (Or.inr rfl)
    refine ⟨rA, rB, hrA, hcompA, hrB, ?_⟩
    have hcompB' : rB.schemaComponents = ⟨db.nextAvailableComponentId,
        db.nextAvailableComponentId + 1, db.nextAvailableComponentId + 2⟩ := hcompB
    intro x hx
    rw [hcompB'] at hx
    simp only [ComponentIdsPerType.toList, List.mem_cons, List.mem_singleton,
      List.not_mem_nil, or_false] at hx
    constructor
    · rcases hx with rfl | rfl | rfl <;> omega
    · intro hxu
      have := hused x hxu
      rcases hx with rfl | rfl | rfl <;> omega

/-- A committed-database scenario: class A holds ids 1000/1001/1002, the
counter is persisted at 9005. -/
def recAC1 : FActorSchemaData :=
  { generatedSchemaName := "ClassA", schemaComponents := ⟨1000, 1001, 1002⟩,
    subobjectData := [] }

def dbC1 : USchemaDatabase :=
  { actorClassPathToSchema := [("/Game/A.A_C", recAC1)],
    subobjectClassPathToSchema := [],
    nextAvailableComponentId := 9005,
    dataComponentIds := [1000],
    ownerOnlyComponentIds := [1001],
    handoverComponentIds := [1002],
    levelPathToComponentId := [],
    netCullDistanceToComponentId := [],
    componentIdToClassPath := [],
    netCullDistanceComponentIds := [],
    levelComponentIds := [],
    schemaDescriptorHash := 0 }

def tiClassA : FUnrealType :=
  { className := "ClassA", classPath := "/Game/A.A_C", bIsActor := true,
    repProps := [], handoverProps := [], subobjects := [] }

def tiClassB : FUnrealType :=
  { className := "ClassB", classPath := "/Game/B.B_C", bIsActor := true,
    repProps := [], handoverProps := [], subobjects := [] }

theorem claim_C1_incremental_stability_witness :
    (LoadGeneratorStateFromSchemaDatabase emptyGenState ⟨true, false, some dbC1⟩).1 = true
    ∧ (SpatialGDKGenerateSchemaForClasses
        (LoadGeneratorStateFromSchemaDatabase emptyGenState ⟨true, false, some dbC1⟩).2
        [tiClassA, tiClassB]).1 = true
    ∧ ∃ rA rB : FActorSchemaData,
        mfind (SpatialGDKGenerateSchemaForClasses
            (LoadGeneratorStateFromSchemaDatabase emptyGenState ⟨true, false, some dbC1⟩).2
            [tiClassA, tiClassB]).2.1.actorClassPathToSchema tiClassA.classPath = some rA
        ∧ rA.schemaComponents = recAC1.schemaComponents
        ∧ mfind (SpatialGDKGenerateSchemaForClasses
            (LoadGeneratorStateFromSchemaDatabase emptyGenState ⟨true, false, some dbC1⟩).2
            [tiClassA, tiClassB]).2.1.actorClassPathToSchema tiClassB.classPath = some rB
        ∧ ∀ x ∈ rB.schemaComponents.toList,
            dbC1.nextAvailableComponentId ≤ x ∧ x ∉ usedComponentIds dbC1 :=
  claim_C1_incremental_stability dbC1 tiClassA tiClassB recAC1 rfl
    (by decide) (by decide) (by decide) (by decide) (by decide) (by decide)
    rfl rfl (by decide) (by decide) (by decide) (by decide)

/-! ## Determinism -/

theorem sortClassesByPath_eq_of_perm (l1 l2 : List FUnrealType) (hperm : l1.Perm l2)
    (hnodup : (l1.map FUnrealType.classPath).Nodup) :
    sortClassesByPath l1 = sortClassesByPath l2 := by
  haveI htot : IsTotal FUnrealType (fun a b => a.classPath ≤ b.classPath) :=
    ⟨fun a b => le_total a.classPath b.classPath⟩
  haveI htrans : IsTrans FUnrealType (fun a b => a.classPath ≤ b.classPath) :=
    ⟨fun a b c hab hbc => le_trans hab hbc⟩
  haveI hanti : IsAntisymm FUnrealType (fun a b => a.classPath < b.classPath) :=
    ⟨fun a b h1 h2 => absurd h2 (lt_asymm h1)⟩
  have hps : (sortClassesByPath l1).Perm (sortClassesByPath l2) :=
    ((List.perm_insertionSort _ l1).trans hperm).trans
      (List.perm_insertionSort _ l2).symm
  have hs1 : (sortClassesByPath l1).Sorted (fun a b => a.classPath ≤ b.classPath) :=
    List.sorted_insertionSort _ l1
  have hs2 : (sortClassesByPath l2).Sorted (fun a b => a.classPath ≤ b.classPath) :=
    List.sorted_insertionSort _ l2
  have hn1 : (sortClassesByPath l1).Pairwise (fun a b => a.classPath ≠ b.classPath) := by
    have : ((sortClassesByPath l1).map FUnrealType.classPath).Nodup :=
      (((List.perm_insertionSort _ l1).map FUnrealType.classPath).nodup_iff).mpr hnodup
    exact (List.pairwise_map.mp this)
  have hn2 : (sortClassesByPath l2).Pairwise (fun a b => a.classPath ≠ b.classPath) := by
    have hnodup2 : (l2.map FUnrealType.classPath).Nodup :=
      ((hperm.map FUnrealType.classPath).nodup_iff).mp hnodup
    have : ((sortClassesByPath l2).map FUnrealType.classPath).Nodup :=
      (((List.perm_insertionSort _ l2).map FUnrealType.classPath).nodup_iff).mpr hnodup2
    exact (List.pairwise_map.mp this)
  have hstrict1 : (sortClassesByPath l1).Sorted (fun a b => a.classPath < b.classPath) :=
    (hs1.and hn1).imp (fun h => lt_of_le_of_ne h.1 h.2)
  have hstrict2 : (sortClassesByPath l2).Sorted (fun a b => a.classPath < b.classPath) :=
    (hs2.and hn2).imp (fun h => lt_of_le_of_ne h.1 h.2)
  exact List.eq_of_perm_of_sorted hps hstrict1 hstrict2

/-- C7: the generation run is deterministic in the class set — for any two
presentations of the same set of class descriptors (with distinct class
paths), two runs from the empty database produce completely identical
results: the same success flag, the same resulting state (hence identical
ComponentId assignments for every (ClassPath, Category) pair), byte-identical
emitted schema text and identical diagnostics.  The run sorts the set
lexicographically by ClassPath, so the result does not depend on the
presentation order. -/
theorem claim_C7_determinism (l1 l2 : List FUnrealType) (hperm : l1.Perm l2)
    (hnodup : (l1.map FUnrealType.classPath).Nodup) :
    SpatialGDKGenerateSchemaForClasses emptyGenState l1
      = SpatialGDKGenerateSchemaForClasses emptyGenState l2 := by
  unfold SpatialGDKGenerateSchemaForClasses
  rw [sortClassesByPath_eq_of_perm l1 l2 hperm hnodup]

theorem claim_C7_determinism_witness :
    ([tiClassA, tiClassB].Perm [tiClassB, tiClassA])
    ∧ SpatialGDKGenerateSchemaForClasses emptyGenState [tiClassA, tiClassB]
      = SpatialGDKGenerateSchemaForClasses emptyGenState [tiClassB, tiClassA] :=
  ⟨List.Perm.swap _ _ _,
    claim_C7_determinism [tiClassA, tiClassB] [tiClassB, tiClassA]
      (List.Perm.swap _ _ _) (by decide)⟩

/-! ## Sublevel and net-cull-distance assignment -/

/-- All level paths appearing in the level-name multimap. -/
def levelPathsOf (entries : List (String × List String)) : List String :=
  (entries.map (·.2)).flatten

/-- The allocator contract one pass of the sublevel loop obeys from map `m`
and generator `g` to map `m'` and generator `g'`, covering the keys `paths`:
the counter only grows, non-zero bindings are preserved verbatim, every
covered key ends bound to a non-zero id, every binding is either inherited or
freshly minted at or above the starting counter, and no key outside the old
map and the covered paths is ever introduced. -/
def AllocStep (paths : List String) (m : List (String × Nat)) (g : FComponentIdGenerator)
    (m' : List (String × Nat)) (g' : FComponentIdGenerator) : Prop :=
  g.nextId ≤ g'.nextId
  ∧ (∀ p v, mfind m p = some v → v ≠ 0 → mfind m' p = some v)
  ∧ (0 < g.nextId → ∀ p, p ∈ paths → ∃ v, mfind m' p = some v ∧ v ≠ 0)
  ∧ (∀ p v, mfind m' p = some v → mfind m p = some v ∨ g.nextId ≤ v)
  ∧ (∀ k, mcontains m' k = true → mcontains m k = true ∨ k ∈ paths)

theorem allocStep_refl (m : List (String × Nat)) (g : FComponentIdGenerator) :
    AllocStep [] m g m g :=
  ⟨le_refl _, fun _ _ h _ => h, fun _ p hp => absurd hp (List.not_mem_nil p),
    fun _ _ h => Or.inl h, fun _ h => Or.inl h⟩

theorem allocStep_trans {ps1 ps2 : List String} {m m1 m2 : List (String × Nat)}
    {g g1 g2 : FComponentIdGenerator}
    (a : AllocStep ps1 m g m1 g1) (b : AllocStep ps2 m1 g1 m2 g2) :
    AllocStep (ps1 ++ ps2) m g m2 g2 := by
  obtain ⟨a1, a2, a3, a4, a5⟩ := a
  obtain ⟨b1, b2, b3, b4, b5⟩ := b
  refine ⟨le_trans a1 b1, fun p v h hnz => b2 p v (a2 p v h hnz) hnz, ?_, ?_, ?_⟩
  · intro hpos p hp
    rcases List.mem_append.mp hp with hp | hp
    · obtain ⟨v, hv, hnz⟩ := a3 hpos p hp
      exact ⟨v, b2 p v hv hnz, hnz⟩
    · exact b3 (lt_of_lt_of_le hpos a1) p hp
  · intro p v h
    rcases b4 p v h with h1 | hge
    · rcases a4 p v h1 with h2 | hge
      · exact Or.inl h2
      · exact Or.inr hge
    · exact Or.inr (le_trans a1 hge)
  · intro k hk
    rcases b5 k hk with h1 | hp
    · rcases a5 k h1 with h2 | hp
      · exact Or.inl h2
      · exact Or.inr (List.mem_append_left _ hp)
    · exact Or.inr (List.mem_append_right _ hp)

theorem alloc_one_spec (m : List (String × Nat)) (g : FComponentIdGenerator) (p : String) :
    AllocStep [p] m g
      (if mfindRef0 m p = 0 then madd m p g.nextId else m)
      (if mfindRef0 m p = 0 then ⟨g.nextId + 1⟩ else g) := by
  by_cases h : mfindRef0 m p = 0
  · rw [if_pos h, if_pos h]
    refine ⟨by simp, ?_, ?_, ?_, ?_⟩
    · intro q v hq hnz
      by_cases hqp : q = p
      · subst hqp
        unfold mfindRef0 at h
        rw [hq] at h
        simp at h
        exact absurd h hnz
      · rw [mfind_madd_ne p q _ (fun he => hqp he.symm)]
        exact hq
    · intro hpos q hq
      rw [List.mem_singleton] at hq
      subst hq
      exact ⟨g.nextId, mfind_madd_self _ _ _, by omega⟩
    · intro q v hv
      by_cases hqp : q = p
      · subst hqp
        rw [mfind_madd_self] at hv
        cases hv
        exact Or.inr (le_refl _)
      · rw [mfind_madd_ne p q _ (fun he => hqp he.symm)] at hv
        exact Or.inl hv
    · intro k hk
      by_cases hkp : k = p
      · exact Or.inr (by simp [hkp])
      · unfold mcontains at hk ⊢
        rw [mfind_madd_ne p k _ (fun he => hkp he.symm)] at hk
        exact Or.inl hk
  · rw [if_neg h, if_neg h]
    refine ⟨le_refl _, fun q v hq _ => hq, ?_, fun q v hv => Or.inl hv,
      fun k hk => Or.inl hk⟩
    intro hpos q hq
    rw [List.mem_singleton] at hq
    subst hq
    unfold mfindRef0 at h
    cases hf : mfind m q with
    | none => rw [hf] at h; simp at h
    | some v =>
      rw [hf] at h
      simp at h
      exact ⟨v, rfl, h⟩

theorem sublevelMultiLoop_cons (name path : String) (rest : List String) (i : Nat)
    (m : List (String × Nat)) (g : FComponentIdGenerator) (w : List String) :
    sublevelMultiLoop name (path :: rest) i m g w
      = sublevelMultiLoop name rest (i + 1)
          (if mfindRef0 m path = 0 then madd m path g.nextId else m)
          (if mfindRef0 m path = 0 then ⟨g.nextId + 1⟩ else g)
          (WriteLevelComponent w (name ++ "Ind" ++ toString i)
            (if mfindRef0 m path = 0 then g.nextId else mfindRef0 m path) path) := by
  by_cases h : mfindRef0 m path = 0 <;>
    simp [sublevelMultiLoop, h, FComponentIdGenerator.next]

theorem sublevelMultiLoop_alloc (name : String) : ∀ (ps : List String) (i : Nat)
    (m : List (String × Nat)) (g : FComponentIdGenerator) (w : List String),
    AllocStep ps m g (sublevelMultiLoop name ps i m g w).1
      (sublevelMultiLoop name ps i m g w).2.1 := by
  intro ps
  induction ps with
  | nil =>
    intro i m g w
    exact allocStep_refl m g
  | cons path rest ih =>
    intro i m g w
    rw [sublevelMultiLoop_cons]
    have hcomp := allocStep_trans (alloc_one_spec m g path)
      (ih (i + 1)
        (if mfindRef0 m path = 0 then madd m path g.nextId else m)
        (if mfindRef0 m path = 0 then ⟨g.nextId + 1⟩ else g)
        (WriteLevelComponent w (name ++ "Ind" ++ toString i)
          (if mfindRef0 m path = 0 then g.nextId else mfindRef0 m path) path))
    simpa using hcomp

theorem sublevelStep_single (m : List (String × Nat)) (g : FComponentIdGenerator)
    (w : List String) (entry : String × List String) (p : String) (hp : entry.2 = [p]) :
    sublevelStep m g w entry
      = ((if mfindRef0 m p = 0 then madd m p g.nextId else m),
        (if mfindRef0 m p = 0 then ⟨g.nextId + 1⟩ else g),
        WriteLevelComponent w entry.1
          (if mfindRef0 m p = 0 then g.nextId else mfindRef0 m p) p) := by
  unfold sublevelStep
  rw [hp]
  by_cases h : mfindRef0 m p = 0 <;> simp [h, FComponentIdGenerator.next]

theorem sublevelStep_alloc (m : List (String × Nat)) (g : FComponentIdGenerator)
    (w : List String) (entry : String × List String) (hne : entry.2 ≠ []) :
    AllocStep entry.2 m g (sublevelStep m g w entry).1 (sublevelStep m g w entry).2.1 := by
  by_cases hlen : entry.2.length > 1
  · unfold sublevelStep
    rw [if_pos hlen]
    exact sublevelMultiLoop_alloc entry.1 entry.2 0 m g w
  · obtain ⟨p, hp⟩ : ∃ p, entry.2 = [p] := by
      cases h2 : entry.2 with
      | nil => exact absurd h2 hne
      | cons a l =>
        cases l with
        | nil => exact ⟨a, rfl⟩
        | cons b t => rw [h2] at hlen; simp at hlen
    rw [sublevelStep_single m g w entry p hp, hp]
    exact alloc_one_spec m g p

theorem sublevelLoop_alloc : ∀ (entries : List (String × List String))
    (m : List (String × Nat)) (g : FComponentIdGenerator) (w : List String),
    (∀ e ∈ entries, e.2 ≠ []) →
    AllocStep (levelPathsOf entries) m g (sublevelLoop entries m g w).1
      (sublevelLoop entries m g w).2.1 := by
  intro entries
  induction entries with
  | nil =>
    intro m g w _
    exact allocStep_refl m g
  | cons e rest ih =>
    intro m g w hne
    have hstep := sublevelStep_alloc m g w e (hne e (List.mem_cons_self _ _))
    have hrest := ih (sublevelStep m g w e).1 (sublevelStep m g w e).2.1
      (sublevelStep m g w e).2.2 (fun x hx => hne x (List.mem_cons_of_mem _ hx))
    have hcomp := allocStep_trans hstep hrest
    show AllocStep (levelPathsOf (e :: rest)) m g
      (sublevelLoop rest (sublevelStep m g w e).1 (sublevelStep m g w e).2.1
        (sublevelStep m g w e).2.2).1 _
    simpa [levelPathsOf] using hcomp

theorem WriteLevelComponent_mono (w : List String) (levelName : String) (componentId : Nat)
    (classPath x : String) (hx : x ∈ w) :
    x ∈ WriteLevelComponent w levelName componentId classPath :=
  List.mem_append_left _ hx

theorem WriteLevelComponent_line (w : List String) (levelName : String) (componentId : Nat)
    (classPath : String) :
    ("component " ++ UnrealNameToSchemaComponentName levelName ++ " \x7b")
      ∈ WriteLevelComponent w levelName componentId classPath := by
  unfold WriteLevelComponent componentBlock
  simp

theorem sublevelMultiLoop_w_mono (name : String) : ∀ (ps : List String) (i : Nat)
    (m : List (String × Nat)) (g : FComponentIdGenerator) (w : List String) (x : String),
    x ∈ w → x ∈ (sublevelMultiLoop name ps i m g w).2.2 := by
  intro ps
  induction ps with
  | nil => intro i m g w x hx; simpa [sublevelMultiLoop] using hx
  | cons p rest ih =>
    intro i m g w x hx
    rw [sublevelMultiLoop_cons]
    exact ih _ _ _ _ x (WriteLevelComponent_mono _ _ _ _ _ hx)

theorem sublevelMultiLoop_w_lines (name : String) : ∀ (ps : List String) (i : Nat)
    (m : List (String × Nat)) (g : FComponentIdGenerator) (w : List String) (j : Nat),
    j < ps.length →
    ("component " ++ UnrealNameToSchemaComponentName (name ++ "Ind" ++ toString (i + j))
        ++ " \x7b")
      ∈ (sublevelMultiLoop name ps i m g w).2.2 := by
  intro ps
  induction ps with
  | nil => intro i m g w j hj; simp at hj
  | cons p rest ih =>
    intro i m g w j hj
    rw [sublevelMultiLoop_cons]
    cases j with
    | zero =>
      rw [Nat.add_zero]
      exact sublevelMultiLoop_w_mono name rest (i + 1) _ _ _ _
        (WriteLevelComponent_line w (name ++ "Ind" ++ toString i) _ p)
    | succ j' =>
      rw [show i + (j' + 1) = (i + 1) + j' from by omega]
      exact ih (i + 1) _ _ _ j' (by simpa using hj)

theorem sublevelStep_w_mono (m : List (String × Nat)) (g : FComponentIdGenerator)
    (w : List String) (entry : String × List String) (x : String) (hx : x ∈ w) :
    x ∈ (sublevelStep m g w entry).2.2 := by
  unfold sublevelStep
  by_cases hlen : entry.2.length > 1
  · rw [if_pos hlen]
    exact sublevelMultiLoop_w_mono _ _ _ _ _ _ x hx
  · rw [if_neg hlen]
    by_cases hs : mfindRef0 m (entry.2.headD "") = 0 <;>
      · simp only [hs, if_true, if_false, FComponentIdGenerator.next]
        exact List.mem_append_left _ hx

theorem sublevelLoop_w_mono : ∀ (entries : List (String × List String))
    (m : List (String × Nat)) (g : FComponentIdGenerator) (w : List String) (x : String),
    x ∈ w → x ∈ (sublevelLoop entries m g w).2.2 := by
  intro entries
  induction entries with
  | nil => intro m g w x hx; simpa [sublevelLoop] using hx
  | cons e rest ih =>
    intro m g w x hx
    show x ∈ (sublevelLoop rest (sublevelStep m g w e).1 (sublevelStep m g w e).2.1
      (sublevelStep m g w e).2.2).2.2
    exact ih _ _ _ x (sublevelStep_w_mono m g w e x hx)

theorem sublevelLoop_w_lines : ∀ (entries : List (String × List String))
    (m : List (String × Nat)) (g : FComponentIdGenerator) (w : List String)
    (e : String × List String), e ∈ entries → e.2.length > 1 → ∀ j, j < e.2.length →
    ("component " ++ UnrealNameToSchemaComponentName (e.1 ++ "Ind" ++ toString j)
        ++ " \x7b")
      ∈ (sublevelLoop entries m g w).2.2 := by
  intro entries
  induction entries with
  | nil => intro m g w e he; cases he
  | cons e' rest ih =>
    intro m g w e he hlen j hj
    show _ ∈ (sublevelLoop rest (sublevelStep m g w e').1 (sublevelStep m g w e').2.1
      (sublevelStep m g w e').2.2).2.2
    rcases List.mem_cons.mp he with rfl | he
    · refine sublevelLoop_w_mono rest _ _ _ _ ?_
      unfold sublevelStep
      rw [if_pos hlen]
      have := sublevelMultiLoop_w_lines e.1 e.2 0 m g w j hj
      simpa using this
    · exact ih _ _ _ e he hlen j hj

theorem ncdLoop_spec : ∀ (l : List (Nat × Nat)) (g : FComponentIdGenerator)
    (w : List String),
    g.nextId ≤ (ncdLoop l g w).2.1.nextId
    ∧ List.Forall₂ (fun e e' : Nat × Nat => e'.1 = e.1
        ∧ (e.2 ≠ 0 → e'.2 = e.2)
        ∧ (e.2 = 0 → g.nextId ≤ e'.2)) l (ncdLoop l g w).1 := by
  intro l
  induction l with
  | nil => intro g w; exact ⟨le_refl _, List.Forall₂.nil⟩
  | cons e rest ih =>
    intro g w
    obtain ⟨k, v⟩ := e
    by_cases hv : v = 0
    · subst hv
      simp only [ncdLoop, if_pos rfl, FComponentIdGenerator.next]
      have hrest := ih ⟨g.nextId + 1⟩
        (w ++ ("// distance " ++ toString k)
          :: componentBlock (UnrealNameToSchemaComponentName
            ("NetCullDistanceSquared" ++ toString k)) g.nextId)
      refine ⟨le_trans (by simp) hrest.1, ?_⟩
      refine List.Forall₂.cons ⟨rfl, fun h => absurd rfl h, fun _ => le_refl _⟩ ?_
      refine hrest.2.imp ?_
      intro a b hab
      exact ⟨hab.1, hab.2.1, fun hz => le_trans (by simp) (hab.2.2 hz)⟩
    · simp only [ncdLoop, if_neg hv]
      have hrest := ih g
        (w ++ ("// distance " ++ toString k)
          :: componentBlock (UnrealNameToSchemaComponentName
            ("NetCullDistanceSquared" ++ toString k)) v)
      refine ⟨hrest.1, ?_⟩
      exact List.Forall₂.cons ⟨rfl, fun _ => rfl, fun hz => absurd hz hv⟩ hrest.2

/-- C9: the sublevel / net-cull-distance assignment policy.  For sublevels:
an already-assigned non-zero level-path binding is reused verbatim; every
level path of the input multimap ends up bound to exactly one non-zero
ComponentId, freshly minted at or above the shared global counter when the
key had no non-zero binding; the stored keys are only ever level paths (never
display names); the global counter only grows; and for duplicate level names
every path's component is emitted under the index-suffixed display name.  For
net-cull distances: every distance key keeps its place, non-zero ids are
reused verbatim and zero ids are replaced by fresh non-zero ids at or above
the counter. -/
theorem claim_C9_unique_key_assignment (st : GenState)
    (entries : List (String × List String))
    (hne : ∀ e ∈ entries, e.2 ≠ [])
    (hpos : 0 < st.nextAvailableComponentId) :
    (∀ p v, mfind st.levelPathToComponentId p = some v → v ≠ 0 →
      mfind (GenerateSchemaForSublevels st entries).1.levelPathToComponentId p = some v)
    ∧ (∀ p, p ∈ levelPathsOf entries →
        ∃ v, mfind (GenerateSchemaForSublevels st entries).1.levelPathToComponentId p
            = some v
          ∧ v ≠ 0
          ∧ (mfindRef0 st.levelPathToComponentId p = 0 →
              st.nextAvailableComponentId ≤ v))
    ∧ (∀ k, mcontains (GenerateSchemaForSublevels st entries).1.levelPathToComponentId k
          = true →
        mcontains st.levelPathToComponentId k = true ∨ k ∈ levelPathsOf entries)
    ∧ st.nextAvailableComponentId
        ≤ (GenerateSchemaForSublevels st entries).1.nextAvailableComponentId
    ∧ (∀ e ∈ entries, e.2.length > 1 → ∀ j, j < e.2.length →
        ("component " ++ UnrealNameToSchemaComponentName (e.1 ++ "Ind" ++ toString j)
            ++ " \x7b")
          ∈ (GenerateSchemaForSublevels st entries).2)
    ∧ List.Forall₂ (fun e e' : Nat × Nat => e'.1 = e.1
        ∧ (e.2 ≠ 0 → e'.2 = e.2)
        ∧ (e.2 = 0 → st.nextAvailableComponentId ≤ e'.2 ∧ e'.2 ≠ 0))
      st.netCullDistanceToComponentId
      (GenerateSchemaForNCDs st).1.netCullDistanceToComponentId := by
  obtain ⟨a1, a2, a3, a4, a5⟩ := sublevelLoop_alloc entries st.levelPathToComponentId
    ⟨st.nextAvailableComponentId⟩ [] hne
  refine ⟨?_, ?_, ?_, a1, ?_, ?_⟩
  · intro p v h hnz
    exact a2 p v h hnz
  · intro p hp
    obtain ⟨v, hv, hnz⟩ := a3 hpos p hp
    refine ⟨v, hv, hnz, ?_⟩
    intro h0
    rcases a4 p v hv with hold | hge
    · unfold mfindRef0 at h0
      rw [hold] at h0
      simp at h0
      exact absurd h0 hnz
    · exact hge
  · intro k hk
    exact a5 k hk
  · intro e he hlen j hj
    exact sublevelLoop_w_lines entries st.levelPathToComponentId
      ⟨st.nextAvailableComponentId⟩ [] e he hlen j hj
  · have hncd := ncdLoop_spec st.netCullDistanceToComponentId
      ⟨st.nextAvailableComponentId⟩ []
    refine hncd.2.imp ?_
    intro a b hab
    refine ⟨hab.1, hab.2.1, fun hz => ⟨hab.2.2 hz, ?_⟩⟩
    have h2 : st.nextAvailableComponentId ≤ b.2 := hab.2.2 hz
    omega

/-- A concrete sublevel/NCD scenario: level `L1` already assigned id 77,
duplicate level name `LevelA` with two paths, one NCD key unassigned and one
assigned. -/
def stC9 : GenState :=
  { emptyGenState with
    levelPathToComponentId := [("/Game/Maps/L1", 77)],
    nextAvailableComponentId := 9100,
    netCullDistanceToComponentId := [(5000, 0), (2500, 42)] }

def entriesC9 : List (String × List String) :=
  [("LevelA", ["/Game/Maps/A1", "/Game/Sub/A1"]), ("L1", ["/Game/Maps/L1"])]

theorem claim_C9_unique_key_assignment_witness :
    (∀ e ∈ entriesC9, e.2 ≠ [])
    ∧ 0 < stC9.nextAvailableComponentId
    ∧ mfind (GenerateSchemaForSublevels stC9 entriesC9).1.levelPathToComponentId
        "/Game/Maps/L1" = some 77
    ∧ ("component " ++ UnrealNameToSchemaComponentName ("LevelA" ++ "Ind" ++ toString 1)
        ++ " \x7b") ∈ (GenerateSchemaForSublevels stC9 entriesC9).2 :=
  ⟨by decide, by decide,
    (claim_C9_unique_key_assignment stC9 entriesC9 (by decide) (by decide)).1
      "/Game/Maps/L1" 77 (by decide) (by decide),
    (claim_C9_unique_key_assignment stC9 entriesC9 (by decide) (by decide)).2.2.2.2.1
      ("LevelA", ["/Game/Maps/A1", "/Game/Sub/A1"]) (by decide) (by decide) 1 (by decide)⟩

end SpatialGDK
